import Mathlib

set_option maxHeartbeats 1000000
set_option maxRecDepth 8000

/- Verification of the anchor-shield scanner core (scanner/patterns/base.py,
   the six detector modules, and scanner/engine.py) against its specification.
   Source text is modelled as a list of characters; Python regular expressions
   are modelled by explicit executable matchers that implement the search
   semantics of the concrete patterns used in the code (leftmost match, greedy
   and lazy groups as they behave on the concrete patterns).  The character
   classes \w and \s and str.strip are modelled on their ASCII fragment, which
   covers every scanned source. -/

/-- Python str.strip and regex \s whitespace set (ASCII fragment). -/
def isPySpace (c : Char) : Bool :=
  c = ' ' || c = '\t' || c = '\n' || c = '\r' || c = '\x0b' || c = '\x0c'

/-- Python str.strip(): drop whitespace on both ends. -/
def pyStrip (l : List Char) : List Char :=
  ((l.dropWhile isPySpace).reverse.dropWhile isPySpace).reverse

/-- Regex \w character class (ASCII fragment). -/
def isWordChar (c : Char) : Bool := c.isAlphanum || c = '_'

/-- Python str.split("\n"). -/
def splitLines : List Char → List (List Char)
  | [] => [[]]
  | c :: rest =>
    if c = '\n' then [] :: splitLines rest
    else
      match splitLines rest with
      | [] => [[c]]
      | l :: ls => (c :: l) :: ls

/-- content[:pos].count("\n") as used by _get_line_number (minus the +1). -/
def nlCount (cs : List Char) : Nat := cs.count '\n'

def strOf (l : List Char) : String := String.mk l

def stripStr (l : List Char) : String := strOf (pyStrip l)

/-- re.search of a literal pattern: the pattern occurs as a contiguous substring. -/
def hasSub : List Char → List Char → Bool
  | pat, [] => pat.isEmpty
  | pat, c :: rest => pat.isPrefixOf (c :: rest) || hasSub pat rest

/-- Regex \s* : skip whitespace. -/
def skipWs (cs : List Char) : List Char := cs.dropWhile isPySpace

/-- str.rstrip(","): drop trailing comma characters. -/
def rstripComma (l : List Char) : List Char :=
  (l.reverse.dropWhile (fun c => c = ',')).reverse

/- ===== the field-declaration regex of _parse_struct_fields =====
   re.search(r"(?:pub\s+)?(\w+)\s*:\s*(.+?)(?:,\s*)?$", stripped)
   The lazy group (.+?) takes the least number of characters such that the
   remainder of the line is empty or a comma followed by whitespace. -/

/-- Does the remainder qualify as the optional trailing ",\s*" before $? -/
def commaWs : List Char → Bool
  | ',' :: ws => ws.all isPySpace
  | _ => false

/-- The lazy (.+?) group followed by the optional ",\s*" and end of line. -/
def lazyBody : List Char → Option (List Char)
  | [] => none
  | c :: rest =>
    if rest.isEmpty || commaWs rest then some [c]
    else (lazyBody rest).map (fun t => c :: t)

/-- (\w+)\s*:\s*(.+?)(?:,\s*)?$ anchored at the current position. -/
def fieldCoreAt (cs : List Char) : Option (List Char × List Char) :=
  let nm := cs.takeWhile isWordChar
  if nm.isEmpty then none
  else
    match skipWs (cs.drop nm.length) with
    | ':' :: r => (lazyBody (skipWs r)).map (fun t => (nm, t))
    | _ => none

/-- The whole field regex anchored at the current position: the optional
    "pub\s+" prefix is tried first, then the bare form, as re does. -/
def fieldSearchAt (cs : List Char) : Option (List Char × List Char) :=
  (match cs with
   | 'p' :: 'u' :: 'b' :: d :: r =>
     if isPySpace d then fieldCoreAt (skipWs (d :: r)) else none
   | _ => none).orElse (fun _ => fieldCoreAt cs)

/-- re.search: try every start position from the left. -/
def fieldSearch : List Char → Option (List Char × List Char)
  | [] => none
  | c :: rest => (fieldSearchAt (c :: rest)).orElse (fun _ => fieldSearch rest)

/- ===== _parse_struct_fields ===== -/

/-- StructField: one parsed field of a derive(Accounts) struct body
    (the dict with keys name, type, line, attrs built by _parse_struct_fields). -/
structure StructField where
  name : String
  type : String
  line : Nat
  attrs : String
deriving DecidableEq

/-- The loop state of _parse_struct_fields: emitted fields, pending attribute
    lines, the in-multi-line-attribute flag and the open-paren depth. -/
structure PSState where
  fields : List StructField
  currentAttrs : List String
  inAttr : Bool
  parenDepth : Int
deriving DecidableEq

/-- stripped.count("(") - stripped.count(")"). -/
def pDiff (s : List Char) : Int := (s.count '(' : Int) - (s.count ')' : Int)

def spaceSep : String := " "

/-- One iteration of the _parse_struct_fields loop on line index i. -/
def psStep (structStart i : Nat) (st : PSState) (line : List Char) : PSState :=
  let s := pyStrip line
  if ("///").data.isPrefixOf s then
    { st with currentAttrs := st.currentAttrs ++ [strOf s] }
  else if st.inAttr then
    let d := st.parenDepth + pDiff s
    if d ≤ 0 then
      { st with currentAttrs := st.currentAttrs ++ [strOf s], inAttr := false, parenDepth := 0 }
    else
      { st with currentAttrs := st.currentAttrs ++ [strOf s], parenDepth := d }
  else if ("#[").data.isPrefixOf s then
    let d := pDiff s
    { st with currentAttrs := st.currentAttrs ++ [strOf s], inAttr := decide (0 < d), parenDepth := d }
  else
    match fieldSearch s with
    | some (nm, ty) =>
      { st with
          fields := st.fields ++
            [{ name := strOf nm
               type := strOf (rstripComma (pyStrip ty))
               line := structStart + i + 1
               attrs := String.intercalate spaceSep st.currentAttrs }]
          currentAttrs := [] }
    | none =>
      if s.isEmpty || ("//").data.isPrefixOf s then st
      else { st with currentAttrs := [] }

/-- The _parse_struct_fields loop over the remaining lines. -/
def psRun (structStart : Nat) : PSState → Nat → List (List Char) → PSState
  | st, _, [] => st
  | st, i, l :: ls => psRun structStart (psStep structStart i st l) (i + 1) ls

def initPS : PSState := { fields := [], currentAttrs := [], inAttr := false, parenDepth := 0 }

/-- _parse_struct_fields(struct_body, struct_start).  Total by construction:
    the Python original likewise never raises, silently skipping lines that
    match none of its cases. -/
def parseStructFields (structBody : String) (structStart : Nat) : List StructField :=
  (psRun structStart initPS 0 (splitLines structBody.data)).fields

/- ===== _find_derive_accounts_structs ===== -/

/-- The brace-counting while loop: depth starts at 1 after the opening brace;
    returns the body (characters before the matching close brace), or none if
    the input ends before depth returns to zero. -/
def scanBody : List Char → Nat → Option (List Char)
  | [], _ => none
  | c :: rest, depth =>
    let d := if c = '\x7b' then depth + 1 else if c = '\x7d' then depth - 1 else depth
    if d = 0 then some []
    else (scanBody rest d).map (fun b => c :: b)

/-- The literal marker regex #\[derive\(Accounts\)\].  The literal has no
    nontrivial self-overlap, so finditer's non-overlapping matches are exactly
    all occurrences. -/
def deriveMarker : List Char := ("#[derive(Accounts)]").data

def markerOccs (cs : List Char) : List Nat :=
  (List.range cs.length).filter (fun p => deriveMarker.isPrefixOf (cs.drop p))

/-- Characters before the first "]" with no newline in between: the lazy .*?
    of the header lookahead regex (modelled as first-closing-bracket). -/
def spanToRBrack : List Char → Nat → Option Nat
  | [], _ => none
  | c :: rest, acc =>
    if c = ']' then some acc
    else if c = '\n' then none
    else spanToRBrack rest (acc + 1)

/-- One (?:#\[.*?\]\s*) group of the header regex; returns characters consumed. -/
def hdrAttrGroup (cs : List Char) : Option Nat :=
  if ("#[").data.isPrefixOf cs then
    match spanToRBrack (cs.drop 2) 0 with
    | some k =>
      some (2 + k + 1 + ((cs.drop (2 + k + 1)).takeWhile isPySpace).length)
    | none => none
  else none

/-- (?:#\[.*?\]\s*)* : as many attribute groups as match. -/
def hdrAttrs : Nat → List Char → Nat → Nat
  | 0, _, acc => acc
  | fuel + 1, cs, acc =>
    match hdrAttrGroup cs with
    | some n => hdrAttrs fuel (cs.drop n) (acc + n)
    | none => acc

/-- A keyword followed by \s+ ; returns the rest after the whitespace. -/
def kwThenWs (kw : List Char) (cs : List Char) : Option (List Char) :=
  if kw.isPrefixOf cs then
    match cs.drop kw.length with
    | c :: r => if isPySpace c then some (skipWs (c :: r)) else none
    | [] => none
  else none

/-- \s*(?:#\[.*?\]\s*)*pub\s+struct\s+(\w+) anchored at the current position;
    returns the struct name and the offset of the end of the name. -/
def hdrTryAt (cs : List Char) : Option (List Char × Nat) :=
  let cs1 := skipWs cs
  let cs2 := cs1.drop (hdrAttrs (cs1.length + 1) cs1 0)
  match kwThenWs (("pub").data) cs2 with
  | none => none
  | some cs3 =>
    match kwThenWs (("struct").data) cs3 with
    | none => none
    | some cs4 =>
      let nm := cs4.takeWhile isWordChar
      if nm.isEmpty then none
      else some (nm, cs.length - (cs4.length - nm.length))

/-- re.search of the header regex over the lookahead window. -/
def hdrSearchAux : Nat → List Char → Nat → Option (List Char × Nat)
  | 0, _, _ => none
  | fuel + 1, cs, pos =>
    match hdrTryAt cs with
    | some (nm, len) => some (nm, pos + len)
    | none =>
      match cs with
      | [] => none
      | _ :: rest => hdrSearchAux fuel rest (pos + 1)

def hdrSearch (cs : List Char) : Option (List Char × Nat) :=
  hdrSearchAux (cs.length + 1) cs 0

/-- content.find(c, start): first occurrence of c at or after start. -/
def findCharFrom (cs : List Char) (c : Char) (start : Nat) : Option Nat :=
  ((cs.drop start).findIdx? (fun x => x = c)).map (fun k => start + k)

/-- The body of the per-marker-occurrence iteration of
    _find_derive_accounts_structs; none models each `continue`. -/
def processOcc (cs : List Char) (p : Nat) : Option (String × String × Nat) :=
  let pos := p + deriveMarker.length
  match hdrSearch ((cs.drop pos).take 500) with
  | none => none
  | some (nm, endOff) =>
    match findCharFrom cs '\x7b' (pos + endOff) with
    | none => none
    | some braceStart =>
      match scanBody (cs.drop (braceStart + 1)) 1 with
      | none => none
      | some body => some (strOf nm, strOf body, nlCount (cs.take p) + 1)

/-- _find_derive_accounts_structs(content): total by construction, mirroring
    the Python function, which only ever skips malformed occurrences. -/
def findDeriveAccountsStructs (content : String) : List (String × String × Nat) :=
  (markerOccs content.data).filterMap (processOcc content.data)

/- ===== Finding data model (scanner/patterns/base.py Finding dataclass).
   The remaining constructor arguments of the dataclass (root_cause,
   exploit_scenario, fix_recommendation, code_snippet, before_after_state,
   impact, reference, anchor_versions_affected, ecosystem_recommendations)
   are fixed explanatory / presentation strings supplied by each detector and
   play no role in any claim; they are omitted from the model. ===== -/

structure Finding where
  id : String
  name : String
  severity : String
  file : String
  line : Nat
  description : String
deriving DecidableEq

/- ===== shared regex matchers used by the detectors ===== -/

/-- A keyword occurrence bounded by \b on both sides (regex \bkw\b). -/
def wordBoundedAt (kw : List Char) (prev : Option Char) (cs : List Char) : Bool :=
  kw.isPrefixOf cs &&
    (match prev with
     | none => true
     | some p => !(isWordChar p)) &&
    (match cs.drop kw.length with
     | [] => true
     | c :: _ => !(isWordChar c))

def hasWordAux (kw : List Char) : Option Char → List Char → Bool
  | _, [] => false
  | prev, c :: rest => wordBoundedAt kw prev (c :: rest) || hasWordAux kw (some c) rest

/-- re.search(r"\bkw\b", cs). -/
def hasWord (kw cs : List Char) : Bool := hasWordAux kw none cs

/-- \bclose\s*= anchored with its word boundary against the previous char. -/
def closeEqAt (prev : Option Char) (cs : List Char) : Bool :=
  ("close").data.isPrefixOf cs &&
    (match prev with
     | none => true
     | some p => !(isWordChar p)) &&
    (match skipWs (cs.drop 5) with
     | '=' :: _ => true
     | _ => false)

def hasCloseEqAux : Option Char → List Char → Bool
  | _, [] => false
  | prev, c :: rest => closeEqAt prev (c :: rest) || hasCloseEqAux (some c) rest

/-- re.search(r"\bclose\s*=", cs). -/
def hasCloseEq (cs : List Char) : Bool := hasCloseEqAux none cs

/-- The tail shared by the two init_if_needed safety regexes after the probed
    attribute name: \s*(?:\.is_none\(\)|==\s*(?:None|COption::None)). -/
def constraintTail (cs : List Char) : Bool :=
  let r := skipWs cs
  (".is_none()").data.isPrefixOf r ||
    (("==").data.isPrefixOf r &&
      (("None").data.isPrefixOf (skipWs (r.drop 2)) ||
        ("COption::None").data.isPrefixOf (skipWs (r.drop 2))))

/-- \s*== as required after ".owner" in the second owner-constraint pattern. -/
def ownerEqTail (cs : List Char) : Bool :=
  match skipWs cs with
  | '=' :: '=' :: _ => true
  | _ => false

/-- [^,]* probe tail: scan forward for the probe without crossing a comma
    (the backtracking of the greedy [^,]* in the source regexes). -/
def seekProbe (probe : List Char) (tail : List Char → Bool) : List Char → Bool
  | [] => false
  | c :: rest =>
    if probe.isPrefixOf (c :: rest) && tail ((c :: rest).drop probe.length) then true
    else if c = ',' then false
    else seekProbe probe tail rest

/-- re.search(r"constraint\s*=\s*[^,]*" ++ probe ++ tail, cs). -/
def constraintSearch (probe : List Char) (tail : List Char → Bool) : List Char → Bool
  | [] => false
  | c :: rest =>
    (("constraint").data.isPrefixOf (c :: rest) &&
      (match skipWs ((c :: rest).drop 10) with
       | '=' :: r => seekProbe probe tail (skipWs r)
       | _ => false)) || constraintSearch probe tail rest

/-- re.search(r"owner\s*=", cs): first alternative of the owner-constraint check. -/
def hasOwnerEqAux : List Char → Bool
  | [] => false
  | c :: rest =>
    (("owner").data.isPrefixOf (c :: rest) &&
      (match skipWs ((c :: rest).drop 5) with
       | '=' :: _ => true
       | _ => false)) || hasOwnerEqAux rest

/-- re.search(r"owner\s*=|constraint\s*=\s*[^,]*\.owner\s*==", cs). -/
def hasOwnerCheck (cs : List Char) : Bool :=
  hasOwnerEqAux cs || constraintSearch ((".owner").data) ownerEqTail cs

/-- re.search(r"///\s*CHECK\s*:", cs). -/
def hasCheckComment : List Char → Bool
  | [] => false
  | c :: rest =>
    (("///").data.isPrefixOf (c :: rest) &&
      (("CHECK").data.isPrefixOf (skipWs ((c :: rest).drop 3)) &&
        (match skipWs ((skipWs ((c :: rest).drop 3)).drop 5) with
         | ':' :: _ => true
         | _ => false))) || hasCheckComment rest

/-- DELEGATE_CHECK_RE (probe ".delegate") / CLOSE_AUTH_CHECK_RE
    (probe ".close_authority") of the init_if_needed detector. -/
def hasSafetyConstraint (probe : List Char) (cs : List Char) : Bool :=
  constraintSearch probe constraintTail cs

/-- str.lower() (ASCII fragment). -/
def pyLower (s : String) : String := strOf (s.data.map Char.toLower)

/-- str.rstrip("_"). -/
def rstripUnderscore (s : String) : String :=
  strOf ((s.data.reverse.dropWhile (fun c => c = '_')).reverse)

def strEndsWith (s suffix : String) : Bool := suffix.data.isSuffixOf s.data

/-- (\w+)\s*:\s*(Kw\s*<) anchored at the current position: a field of the raw
    handle type Kw; returns the field name. -/
def rawFieldAt (kw : List Char) (cs : List Char) : Option (List Char) :=
  let nm := cs.takeWhile isWordChar
  if nm.isEmpty then none
  else
    match skipWs (cs.drop nm.length) with
    | ':' :: r =>
      if kw.isPrefixOf (skipWs r) then
        match skipWs ((skipWs r).drop kw.length) with
        | '<' :: _ => some nm
        | _ => none
      else none
    | _ => none

def rawFieldSearch (kw : List Char) : List Char → Option (List Char)
  | [] => none
  | c :: rest => (rawFieldAt kw (c :: rest)).orElse (fun _ => rawFieldSearch kw rest)

/-- ai_match or uc_match: the AccountInfo pattern is tried first, then
    UncheckedAccount, exactly as in the two detectors that use it. -/
def rawHandleMatch (line : List Char) : Option (String × String) :=
  match rawFieldSearch (("AccountInfo").data) line with
  | some nm => some (strOf nm, "AccountInfo")
  | none =>
    match rawFieldSearch (("UncheckedAccount").data) line with
    | some nm => some (strOf nm, "UncheckedAccount")
    | none => none

/-- Kw\s*<\s*'[^,]+,\s*(\w+) anchored at the current position: the base-type
    extraction pattern of close_reinit.py / duplicate_mutable.py. -/
def acctTypeAt (kw : List Char) (cs : List Char) : Option (List Char) :=
  if kw.isPrefixOf cs then
    match skipWs (cs.drop kw.length) with
    | '<' :: r =>
      match skipWs r with
      | '\x27' :: r2 =>
        let inner := r2.takeWhile (fun c => !(c = ','))
        if inner.isEmpty then none
        else
          match r2.drop inner.length with
          | ',' :: r3 =>
            let nm := (skipWs r3).takeWhile isWordChar
            if nm.isEmpty then none else some nm
          | _ => none
      | _ => none
    | _ => none
  else none

def acctTypeSearch (kw : List Char) : List Char → Option (List Char)
  | [] => none
  | c :: rest => (acctTypeAt kw (c :: rest)).orElse (fun _ => acctTypeSearch kw rest)

/-- _extract_account_type / _extract_base_type (identical in close_reinit.py
    and duplicate_mutable.py): Account first, then InterfaceAccount, else "". -/
def extractAccountType (ty : String) : String :=
  match acctTypeSearch (("Account").data) ty.data with
  | some nm => strOf nm
  | none =>
    match acctTypeSearch (("InterfaceAccount").data) ty.data with
    | some nm => strOf nm
    | none => ""

/- ===== Detector A: init_if_needed.py (ANCHOR-001) ===== -/

/-- ACCOUNT_ATTR_RE body: after "#[account(", consume balanced parentheses
    (the regex grammar caps the nesting of the group content at two inner
    levels) up to the matching close paren, which must be followed by "]".
    Returns the group content and the characters consumed after the prefix. -/
def aaScan : List Char → Nat → Option (List Char × Nat)
  | [], _ => none
  | c :: rest, d =>
    if c = ')' then
      if d = 1 then
        match rest with
        | ']' :: _ => some ([], 2)
        | _ => none
      else (aaScan rest (d - 1)).map (fun g => (c :: g.1, g.2 + 1))
    else if c = '(' then
      if 3 ≤ d then none
      else (aaScan rest (d + 1)).map (fun g => (c :: g.1, g.2 + 1))
    else (aaScan rest d).map (fun g => (c :: g.1, g.2 + 1))

/-- ACCOUNT_ATTR_RE anchored at the current position; returns the group(1)
    content and the total match length. -/
def aaMatchAt (cs : List Char) : Option (List Char × Nat) :=
  if ("#[account(").data.isPrefixOf cs then
    (aaScan (cs.drop 10) 1).map (fun g => (g.1, 10 + g.2))
  else none

/-- ACCOUNT_ATTR_RE.finditer: leftmost matches, continuing after each match. -/
def aaFindAux : Nat → List Char → Nat → List (Nat × List Char)
  | 0, _, _ => []
  | fuel + 1, cs, pos =>
    match cs with
    | [] => []
    | _ :: rest =>
      match aaMatchAt cs with
      | some (g, len) => (pos, g) :: aaFindAux fuel (cs.drop len) (pos + len)
      | none => aaFindAux fuel rest (pos + 1)

def aaMatches (cs : List Char) : List (Nat × List Char) := aaFindAux (cs.length + 1) cs 0

/-- token\s*:: (or associated_token\s*::) occurring anywhere. -/
def tokenColonsAt (kw : List Char) (cs : List Char) : Bool :=
  kw.isPrefixOf cs && ("::").data.isPrefixOf (skipWs (cs.drop kw.length))

def hasTokenMarker (kw : List Char) : List Char → Bool
  | [] => false
  | c :: rest => tokenColonsAt kw (c :: rest) || hasTokenMarker kw rest

def mkInitFinding (file : String) (line : Nat) (tokenTitled missing : String) : Finding :=
  { id := "ANCHOR-001"
    name := "init_if_needed Incomplete Field Validation"
    severity := "High"
    file := file
    line := line
    description := tokenTitled ++ " account accepted via init_if_needed without validation of " ++ missing ++ " fields." }

def commaSep : String := ", "

/-- The ±30-line context window of init_if_needed.py: with next line number L,
    "\n".join(lines[max(0, L - 30) : min(len(lines), L + 30)]). -/
def initWindow (cs : List Char) (p : Nat) : List Char :=
  let lineNum := nlCount (cs.take p) + 1
  let lines := splitLines cs
  let s := lineNum - 30
  let e := min lines.length (lineNum + 30)
  List.intercalate [('\n')] ((lines.drop s).take (e - s))

/-- The body of the per-match iteration of InitIfNeededPattern.scan;
    none models each `continue`. -/
def initProcessMatch (file : String) (cs : List Char) (m : Nat × List Char) : Option Finding :=
  if !(hasSub (("init_if_needed").data) m.2) then none
  else
    let isTok := hasTokenMarker (("token").data) m.2
    let isAssoc := hasTokenMarker (("associated_token").data) m.2
    if !isTok && !isAssoc then none
    else
      let ctx := initWindow cs m.1
      let hasDel := hasSafetyConstraint ((".delegate").data) ctx
      let hasClose := hasSafetyConstraint ((".close_authority").data) ctx
      if hasDel && hasClose then none
      else
        let missing := String.intercalate commaSep
          ((if hasDel then [] else ["delegate"]) ++ (if hasClose then [] else ["close_authority"]))
        -- token_type.title() of the only two possible values of token_type
        some (mkInitFinding file (nlCount (cs.take m.1) + 1)
          (if isAssoc then "Associated_Token" else "Token") missing)

/-- InitIfNeededPattern.scan. -/
def initIfNeededScan (file content : String) : List Finding :=
  (aaMatches content.data).filterMap (initProcessMatch file content.data)

/- ===== Detector B: duplicate_mutable.py (ANCHOR-002) ===== -/

def mkDupFinding (sn initField initBase mutField mutBase file : String) (line : Nat) : Finding :=
  { id := "ANCHOR-002"
    name := "Duplicate Mutable Account Bypass"
    severity := "Medium"
    file := file
    line := line
    description := "In struct " ++ sn ++ ": init_if_needed field \x27" ++ initField ++ "\x27 (" ++ initBase ++ ") coexists with mutable field \x27" ++ mutField ++ "\x27 (" ++ mutBase ++ "). The init_if_needed field is excluded from Anchor\x27s duplicate mutable account check." }

/-- The inner for-loop over mutable fields with its break: the first mutable
    field whose nonempty base type equals the (nonempty) init base type. -/
def dupFirstMut (initBase : String) : List (String × String × Nat) → Option (String × String)
  | [] => none
  | (mn, mt, _) :: rest =>
    let mb := extractAccountType mt
    if !initBase.isEmpty && !mb.isEmpty && initBase == mb then some (mn, mb)
    else dupFirstMut initBase rest

/-- The per-struct body of DuplicateMutablePattern.scan. -/
def dupStructFindings (file : String) (s : String × String × Nat) : List Finding :=
  let fields := parseStructFields s.2.1 s.2.2
  let inits := (fields.filter (fun f => hasSub (("init_if_needed").data) f.attrs.data)).map
    (fun f => (f.name, f.type, f.line))
  let muts := (fields.filter (fun f =>
    !(hasSub (("init_if_needed").data) f.attrs.data) && hasWord (("mut").data) f.attrs.data)).map
    (fun f => (f.name, f.type, f.line))
  if inits.isEmpty || muts.isEmpty then []
  else
    inits.filterMap (fun t =>
      (dupFirstMut (extractAccountType t.2.1) muts).map
        (fun mb => mkDupFinding s.1 t.1 (extractAccountType t.2.1) mb.1 mb.2 file t.2.2))

/-- DuplicateMutablePattern.scan. -/
def duplicateMutableScan (file content : String) : List Finding :=
  (findDeriveAccountsStructs content).flatMap (dupStructFindings file)

/- ===== Detector C: realloc_payer.py (ANCHOR-003) ===== -/

/-- REALLOC_PAYER_RE = realloc\s*::\s*payer\s*=\s*(\w+) anchored at the
    current position; returns the payer name and total match length. -/
def reallocPayerAt (cs : List Char) : Option (List Char × Nat) :=
  if ("realloc").data.isPrefixOf cs then
    match skipWs (cs.drop 7) with
    | ':' :: ':' :: r =>
      if ("payer").data.isPrefixOf (skipWs r) then
        match skipWs ((skipWs r).drop 5) with
        | '=' :: r2 =>
          let nm := (skipWs r2).takeWhile isWordChar
          if nm.isEmpty then none
          else some (nm, cs.length - ((skipWs r2).length - nm.length))
        | _ => none
      else none
    | _ => none
  else none

/-- REALLOC_PAYER_RE.finditer over a struct body: (payer name, match start). -/
def reallocFindAux : Nat → List Char → Nat → List (List Char × Nat)
  | 0, _, _ => []
  | fuel + 1, cs, pos =>
    match cs with
    | [] => []
    | _ :: rest =>
      match reallocPayerAt cs with
      | some (nm, len) => (nm, pos) :: reallocFindAux fuel (cs.drop len) (pos + len)
      | none => reallocFindAux fuel rest (pos + 1)

def reallocMatches (cs : List Char) : List (List Char × Nat) :=
  reallocFindAux (cs.length + 1) cs 0

/-- Python dict insertion (insert-or-update preserving first-insertion order). -/
def dictInsert {V : Type} (k : String) (v : V) : List (String × V) → List (String × V)
  | [] => [(k, v)]
  | (k0, v0) :: rest => if k0 = k then (k0, v) :: rest else (k0, v0) :: dictInsert k v rest

def mkReallocFinding (sn payer ptype file : String) (line : Nat) : Finding :=
  { id := "ANCHOR-003"
    name := "Realloc Payer Missing Signer Verification"
    severity := "Medium"
    file := file
    line := line
    description := "In struct " ++ sn ++ ": realloc payer \x27" ++ payer ++ "\x27 is typed as \x27" ++ ptype ++ "\x27 instead of Signer<\x27info>. Lamports transferred without signer verification." }

/-- re.search(r"Signer\s*<", ty). -/
def signerTypeSearch : List Char → Bool
  | [] => false
  | c :: rest =>
    (("Signer").data.isPrefixOf (c :: rest) &&
      (match skipWs ((c :: rest).drop 6) with
       | '<' :: _ => true
       | _ => false)) || signerTypeSearch rest

/-- " ".join(part for part in attrs.split(" ") if part.startswith("#[")). -/
def accountAttrParts (attrs : String) : String :=
  String.intercalate spaceSep ((attrs.splitOn spaceSep).filter (fun p => p.startsWith ("#[")))

/-- The per-struct body of ReallocPayerPattern.scan. -/
def reallocStructFindings (file : String) (s : String × String × Nat) : List Finding :=
  let body := s.2.1.data
  let ms := reallocMatches body
  if ms.isEmpty then []
  else
    let fields := parseStructFields s.2.1 s.2.2
    let ftypes := fields.foldl (fun d f => dictInsert f.name f.type d) []
    let fattrs := fields.foldl (fun d f => dictInsert f.name f.attrs d) []
    ms.filterMap (fun m =>
      match List.lookup (strOf m.1) ftypes with
      | none => none
      | some pt =>
        if signerTypeSearch pt.data then none
        else if hasWord (("signer").data) (accountAttrParts ((List.lookup (strOf m.1) fattrs).getD "")).data then none
        else some (mkReallocFinding s.1 (strOf m.1) pt file (s.2.2 + nlCount (body.take m.2) + 1)))

/-- ReallocPayerPattern.scan. -/
def reallocPayerScan (file content : String) : List Finding :=
  (findDeriveAccountsStructs content).flatMap (reallocStructFindings file)

/- ===== Detector D: type_cosplay.py (ANCHOR-004) ===== -/

/-- SAFE_FIELD_NAMES of type_cosplay.py (a Python set; modelled as a list,
    membership only). -/
def tcSafeNames : List String :=
  ["system_program", "token_program", "rent", "clock", "associated_token_program",
   "authority", "payer", "owner", "signer", "fee_payer", "rent_sysvar"]

/-- The allow-list guard of TypeCosplayPattern.scan. -/
def tcAllowGuard (fname : String) : Bool :=
  tcSafeNames.contains (rstripUnderscore (pyLower fname)) ||
    strEndsWith fname ("_program") || fname == "program"

def mkTcFinding (sn fname tname file : String) (line : Nat) : Finding :=
  { id := "ANCHOR-004"
    name := "Account Type Cosplay — Missing Discriminator Check"
    severity := "Medium"
    file := file
    line := line
    description := "In struct " ++ sn ++ ": field \x27" ++ fname ++ "\x27 uses raw " ++ tname ++ " without owner or discriminator verification. An attacker can substitute a fake account from another program." }

/-- "\n".join(lines[max(0, i - 10) : i + 1]): the backward context window of
    type_cosplay.py. -/
def tcContext (lines : List (List Char)) (i : Nat) : List Char :=
  List.intercalate [('\n')] ((lines.drop (i - 10)).take (i + 1 - (i - 10)))

/-- The suppression test shared by type_cosplay.py and missing_owner.py:
    a signer constraint, an owner constraint, or a CHECK comment. -/
def rawSuppress (cs : List Char) : Bool :=
  hasWord (("signer").data) cs || hasOwnerCheck cs || hasCheckComment cs

/-- The body of one iteration of the per-line loop of TypeCosplayPattern.scan. -/
def tcLine (file sn : String) (start : Nat) (lines : List (List Char)) (i : Nat) : Option Finding :=
  match rawHandleMatch (lines.getD i []) with
  | none => none
  | some (fname, tname) =>
    if tcAllowGuard fname then none
    else if rawSuppress (tcContext lines i) then none
    else some (mkTcFinding sn fname tname file (start + i + 1))

/-- The per-struct body of TypeCosplayPattern.scan. -/
def tcBody (file sn : String) (start : Nat) (lines : List (List Char)) : List Finding :=
  (List.range lines.length).filterMap (tcLine file sn start lines)

/-- TypeCosplayPattern.scan. -/
def typeCosplayScan (file content : String) : List Finding :=
  (findDeriveAccountsStructs content).flatMap
    (fun s => tcBody file s.1 s.2.2 (splitLines s.2.1.data))

/- ===== Detector E: close_reinit.py (ANCHOR-005) ===== -/

def mkCrFinding (acctType closeStruct closeField : String) (closeLine : Nat)
    (initStruct initField : String) (initLine : Nat) (file : String) : Finding :=
  { id := "ANCHOR-005"
    name := "Close + Reinit Lifecycle Attack"
    severity := "Medium"
    file := file
    line := initLine
    description := "Account type \x27" ++ acctType ++ "\x27 is used with close (in " ++ closeStruct ++ "." ++ closeField ++ ", line " ++ toString closeLine ++ ") and init_if_needed (in " ++ initStruct ++ "." ++ initField ++ ", line " ++ toString initLine ++ "). Attacker can close and revive the account." }

/-- The dict-update events of the CloseReinitPattern.scan field loop, in loop
    order: (base type, (struct, field, line), updates close dict, updates
    init_if_needed dict).  Fields with empty base type produce no event. -/
def crEvents (structs : List (String × String × Nat)) :
    List (String × (String × String × Nat) × Bool × Bool) :=
  structs.flatMap (fun s =>
    (parseStructFields s.2.1 s.2.2).filterMap (fun f =>
      let bt := extractAccountType f.type
      if bt.isEmpty then none
      else some (bt, (s.1, f.name, f.line), hasCloseEq f.attrs.data,
        hasSub (("init_if_needed").data) f.attrs.data)))

/-- close_types and init_if_needed_types after the field loop. -/
def crDicts (structs : List (String × String × Nat)) :
    List (String × (String × String × Nat)) × List (String × (String × String × Nat)) :=
  (crEvents structs).foldl
    (fun acc ev =>
      ((if ev.2.2.1 then dictInsert ev.1 ev.2.1 acc.1 else acc.1),
       (if ev.2.2.2 then dictInsert ev.1 ev.2.1 acc.2 else acc.2)))
    ([], [])

/-- set(close_types.keys()) & set(init_if_needed_types.keys()).  CPython
    iterates this set in unspecified (hash) order; it is modelled in the
    first-insertion order of the close dict, which affects only the order of
    the emitted findings. -/
def crOverlap (structs : List (String × String × Nat)) : List String :=
  (((crDicts structs).1.map Prod.fst).filter
    (fun k => ((crDicts structs).2.map Prod.fst).contains k))

/-- The finding emitted for one overlapping base type. -/
def crMk (file : String) (structs : List (String × String × Nat)) (t : String) : Finding :=
  mkCrFinding t
    (((crDicts structs).1.lookup t).getD ("", "", 0)).1
    (((crDicts structs).1.lookup t).getD ("", "", 0)).2.1
    (((crDicts structs).1.lookup t).getD ("", "", 0)).2.2
    (((crDicts structs).2.lookup t).getD ("", "", 0)).1
    (((crDicts structs).2.lookup t).getD ("", "", 0)).2.1
    (((crDicts structs).2.lookup t).getD ("", "", 0)).2.2
    file

/-- CloseReinitPattern.scan after structural extraction. -/
def closeReinitCore (file : String) (structs : List (String × String × Nat)) : List Finding :=
  (crOverlap structs).map (crMk file structs)

/-- CloseReinitPattern.scan. -/
def closeReinitScan (file content : String) : List Finding :=
  closeReinitCore file (findDeriveAccountsStructs content)

/- ===== Detector F: missing_owner.py (ANCHOR-006) ===== -/

/-- SYSTEM_FIELD_NAMES of missing_owner.py. -/
def moSafeNames : List String :=
  ["system_program", "token_program", "rent", "clock", "associated_token_program",
   "sysvar_rent", "sysvar_clock"]

/-- The allow-list guard of MissingOwnerPattern.scan. -/
def moAllowGuard (fname : String) : Bool :=
  moSafeNames.contains (rstripUnderscore (pyLower fname)) ||
    strEndsWith fname ("_program") || fname == "program"

def mkMoFinding (sn fname tname file : String) (line : Nat) : Finding :=
  { id := "ANCHOR-006"
    name := "Missing Owner Validation"
    severity := "High"
    file := file
    line := line
    description := "In struct " ++ sn ++ ": field \x27" ++ fname ++ "\x27 uses raw " ++ tname ++ " without owner validation or CHECK documentation." }

/-- The per-struct line loop of MissingOwnerPattern.scan, carrying the
    accumulated attribute lines. -/
def moRun (file sn : String) (start : Nat) : List String → Nat → List (List Char) → List Finding
  | _, _, [] => []
  | attrs, i, l :: ls =>
    let s := pyStrip l
    if ("#[").data.isPrefixOf s || ("///").data.isPrefixOf s then
      moRun file sn start (attrs ++ [strOf s]) (i + 1) ls
    else
      match rawHandleMatch s with
      | none => moRun file sn start [] (i + 1) ls
      | some (fname, tname) =>
        if moAllowGuard fname || rawSuppress (String.intercalate spaceSep attrs).data then
          moRun file sn start [] (i + 1) ls
        else
          mkMoFinding sn fname tname file (start + i + 1) :: moRun file sn start [] (i + 1) ls

/-- MissingOwnerPattern.scan. -/
def missingOwnerScan (file content : String) : List Finding :=
  (findDeriveAccountsStructs content).flatMap
    (fun s => moRun file s.1 s.2.2 [] 0 (splitLines s.2.1.data))

/-- The attribute accumulator of the missing_owner loop at line index i
    (reference recursion used to state hypotheses about that loop). -/
def moAttrsFrom (attrs : List String) : List (List Char) → Nat → List String
  | _, 0 => attrs
  | [], _ + 1 => attrs
  | l :: ls, i + 1 =>
    let s := pyStrip l
    if ("#[").data.isPrefixOf s || ("///").data.isPrefixOf s then
      moAttrsFrom (attrs ++ [strOf s]) ls i
    else moAttrsFrom [] ls i

def moAttrsAt (lines : List (List Char)) (i : Nat) : List String := moAttrsFrom [] lines i

/- ===== Engine (scanner/engine.py) ===== -/

/-- The severity_weights table of _compute_security_score (dict .get default 0). -/
def severityWeight (s : String) : Nat :=
  if s = "Critical" then 10
  else if s = "High" then 5
  else if s = "Medium" then 2
  else if s = "Low" then 1
  else 0

def scoreTotal (fs : List Finding) : Nat :=
  (fs.map (fun f => severityWeight f.severity)).sum

/-- AnchorShieldEngine._compute_security_score. -/
def computeSecurityScore (fs : List Finding) : String :=
  if fs.isEmpty then "A"
  else if 20 ≤ scoreTotal fs then "F"
  else if 15 ≤ scoreTotal fs then "D"
  else if 10 ≤ scoreTotal fs then "C"
  else if 5 ≤ scoreTotal fs then "B"
  else "B+"

/-- _compute_summary by_severity lookups (the dict is zero-filled on the four
    severities and incremented per finding, so each entry is a count). -/
def summaryBySeverity (fs : List Finding) (s : String) : Nat :=
  fs.countP (fun f => f.severity == s)

/-- _compute_summary by_pattern lookups. -/
def summaryByPattern (fs : List Finding) (pid : String) : Nat :=
  fs.countP (fun f => f.id == pid)

/-- The detector loop of scan_content, in ALL_PATTERNS registration order
    (the Lean scans are total, so the per-pattern try/except of the engine
    never fires here; exception semantics are modelled separately below). -/
def allPatternsScan (file content : String) : List Finding :=
  initIfNeededScan file content ++ duplicateMutableScan file content ++
    reallocPayerScan file content ++ typeCosplayScan file content ++
    closeReinitScan file content ++ missingOwnerScan file content

/-- ScanReport (scan duration and the filesystem-derived anchor_version are
    wall-clock / I/O artifacts outside the model; summary is exposed through
    summaryBySeverity / summaryByPattern). -/
structure ScanReport where
  target : String
  filesScanned : Nat
  patternsChecked : Nat
  findings : List Finding
  securityScore : String
deriving DecidableEq

/-- AnchorShieldEngine.scan_content. -/
def scanContent (content filename : String) : ScanReport :=
  { target := filename
    filesScanned := 1
    patternsChecked := 6
    findings := allPatternsScan filename content
    securityScore := computeSecurityScore (allPatternsScan filename content) }

/- ===== Exception semantics of the engine detector loop =====
   A detector whose scan raises is modelled as a function into Except; the
   engine body `try: all_findings.extend(pattern.scan(...)) except: pass`
   appends the ok-result and appends nothing on error. -/

def runDetectorE (d : String → String → Except String (List Finding))
    (file content : String) : List Finding :=
  match d file content with
  | Except.ok l => l
  | Except.error _ => []

/-- The two nested loops of scan_directory (files outer, patterns inner),
    with the per-(file, pattern) try/except, accumulating all_findings. -/
def engineCollect (files : List (String × String))
    (ds : List (String → String → Except String (List Finding))) : List Finding :=
  files.foldl (fun acc fc => ds.foldl (fun acc2 d => acc2 ++ runDetectorE d fc.1 fc.2) acc) []

/- ===================================================================
   Lemmas and claim theorems
   =================================================================== -/

lemma foldlAppendFlatMap {α β : Type} (g : β → List α) :
    ∀ (l : List β) (acc : List α), l.foldl (fun a b => a ++ g b) acc = acc ++ l.flatMap g := by
  intro l
  induction l with
  | nil => intro acc; simp
  | cons b bs ih => intro acc; simp [ih, List.append_assoc]

/-- C3: the security score is "A" exactly for the empty findings list; for a
    nonempty list the severity-weighted total (Critical=10, High=5, Medium=2,
    Low=1) is mapped to F at 20 or more, D in [15,20), C in [10,15),
    B in [5,10) and B+ below 5. -/
theorem c3_security_score (fs : List Finding) :
    (computeSecurityScore fs = "A" ↔ fs = []) ∧
    (severityWeight "Critical" = 10 ∧ severityWeight "High" = 5 ∧
      severityWeight "Medium" = 2 ∧ severityWeight "Low" = 1) ∧
    (fs ≠ [] →
      (20 ≤ scoreTotal fs → computeSecurityScore fs = "F") ∧
      (15 ≤ scoreTotal fs → scoreTotal fs < 20 → computeSecurityScore fs = "D") ∧
      (10 ≤ scoreTotal fs → scoreTotal fs < 15 → computeSecurityScore fs = "C") ∧
      (5 ≤ scoreTotal fs → scoreTotal fs < 10 → computeSecurityScore fs = "B") ∧
      (scoreTotal fs < 5 → computeSecurityScore fs = "B+")) := by
  refine ⟨?_, ⟨rfl, rfl, rfl, rfl⟩, ?_⟩
  · by_cases hfs : fs = []
    · simp [computeSecurityScore, hfs]
    · have hne : fs.isEmpty = false := by
        simpa [List.isEmpty_iff] using hfs
      simp only [computeSecurityScore, hne, Bool.false_eq_true, if_false]
      constructor
      · intro h
        split_ifs at h <;> simp_all
      · intro h; exact absurd h hfs
  · intro hfs
    have hne : fs.isEmpty = false := by simpa [List.isEmpty_iff] using hfs
    refine ⟨?_, ?_, ?_, ?_, ?_⟩ <;> intro h1 <;>
      first
        | (intro h2; simp only [computeSecurityScore, hne, Bool.false_eq_true, if_false];
           split_ifs <;> first | rfl | omega)
        | (simp only [computeSecurityScore, hne, Bool.false_eq_true, if_false];
           split_ifs <;> first | rfl | omega)

theorem c3_security_score_witness :
    computeSecurityScore [] = "A" ∧
    computeSecurityScore
      [{ id := "X", name := "X", severity := "Medium", file := "f", line := 1, description := "d" },
       { id := "Y", name := "Y", severity := "High", file := "f", line := 2, description := "d" }] = "B" := by
  constructor
  · exact (c3_security_score []).1.mpr rfl
  · exact ((c3_security_score _).2.2 (by decide)).2.2.2.1 (by decide) (by decide)

/-- C9: the engine detector loop accumulates, per file in discovery order and
    per detector in registration order, the ok-findings of each (file,
    detector) pair; a pair whose detector raises (models Except.error)
    contributes the empty list, and the engine result is the concatenation of
    the non-raising pairs' findings.  The collector is a total function, so
    the exception is never surfaced to the caller. -/
theorem c9_engine_exception_isolation :
    (∀ (files : List (String × String))
       (ds : List (String → String → Except String (List Finding))),
       engineCollect files ds =
         files.flatMap (fun fc => ds.flatMap (fun d => runDetectorE d fc.1 fc.2))) ∧
    (∀ (d : String → String → Except String (List Finding)) (file content : String) (e : String),
       d file content = Except.error e → runDetectorE d file content = []) ∧
    (∀ (d : String → String → Except String (List Finding)) (file content : String)
       (l : List Finding), d file content = Except.ok l → runDetectorE d file content = l) := by
  refine ⟨?_, ?_, ?_⟩
  · intro files ds
    unfold engineCollect
    simp only [foldlAppendFlatMap]
    simp
  · intro d file content e h
    simp [runDetectorE, h]
  · intro d file content l h
    simp [runDetectorE, h]

theorem c9_engine_exception_isolation_witness :
    runDetectorE (fun _ _ => Except.error ("boom")) ("a.rs") ("code") = [] ∧
    engineCollect [("a.rs", "code")]
      [fun _ _ => Except.error ("boom"),
       fun _ _ => Except.ok [{ id := "X", name := "X", severity := "Low", file := "a.rs", line := 1, description := "d" }]] =
      [{ id := "X", name := "X", severity := "Low", file := "a.rs", line := 1, description := "d" }] := by
  constructor
  · exact c9_engine_exception_isolation.2.1 _ ("a.rs") ("code") ("boom") rfl
  · rw [c9_engine_exception_isolation.1]
    rfl

lemma scanBody_counts :
    ∀ (cs : List Char) (d : Nat) (body : List Char),
      scanBody cs d = some body → 1 ≤ d →
      (∀ n, ((body.take n).count '\x7d') + 1 ≤ d + (body.take n).count '\x7b') ∧
      d + body.count '\x7b' = body.count '\x7d' + 1 := by
  intro cs
  induction cs with
  | nil => intro d body h hd; simp [scanBody] at h
  | cons c rest ih =>
    intro d body h hd
    have hs : scanBody (c :: rest) d =
        (if (if c = '\x7b' then d + 1 else if c = '\x7d' then d - 1 else d) = 0 then some []
         else (scanBody rest (if c = '\x7b' then d + 1 else if c = '\x7d' then d - 1 else d)).map
           (fun b => c :: b)) := rfl
    rw [hs] at h
    by_cases h0 : (if c = '\x7b' then d + 1 else if c = '\x7d' then d - 1 else d) = 0
    · rw [if_pos h0] at h
      have hbody : body = [] := (Option.some.inj h).symm
      subst hbody
      have hd1 : d = 1 := by
        by_cases hc : c = '\x7b'
        · rw [if_pos hc] at h0; omega
        · rw [if_neg hc] at h0
          by_cases hc2 : c = '\x7d'
          · rw [if_pos hc2] at h0; omega
          · rw [if_neg hc2] at h0; omega
      subst hd1
      constructor
      · intro n; simp
      · rfl
    · rw [if_neg h0] at h
      cases hsb : scanBody rest (if c = '\x7b' then d + 1 else if c = '\x7d' then d - 1 else d) with
      | none => rw [hsb] at h; simp at h
      | some b =>
        rw [hsb] at h
        have hbody : body = c :: b := (Option.some.inj h).symm
        subst hbody
        have hge : 1 ≤ (if c = '\x7b' then d + 1 else if c = '\x7d' then d - 1 else d) := by omega
        obtain ⟨ihpre, iheq⟩ := ih _ b hsb hge
        by_cases hc : c = '\x7b'
        · have hD : (if c = '\x7b' then d + 1 else if c = '\x7d' then d - 1 else d) = d + 1 :=
            if_pos hc
          rw [hD] at iheq ihpre
          have e1 : (c == '\x7b') = true := by rw [hc]; decide
          have e2 : (c == '\x7d') = false := by rw [hc]; decide
          constructor
          · intro n
            cases n with
            | zero => simpa using hd
            | succ n =>
              have hpre := ihpre n
              simp [List.count_cons, e1, e2]
              omega
          · simp [List.count_cons, e1, e2]
            omega
        · by_cases hc2 : c = '\x7d'
          · have hD : (if c = '\x7b' then d + 1 else if c = '\x7d' then d - 1 else d) = d - 1 := by
              rw [if_neg hc, if_pos hc2]
            rw [hD] at iheq ihpre
            have hd2 : 2 ≤ d := by
              rw [hD] at h0; omega
            have e1 : (c == '\x7b') = false := by rw [hc2]; decide
            have e2 : (c == '\x7d') = true := by rw [hc2]; decide
            constructor
            · intro n
              cases n with
              | zero => simpa using hd
              | succ n =>
                have hpre := ihpre n
                simp [List.count_cons, e1, e2]
                omega
            · simp [List.count_cons, e1, e2]
              omega
          · have hD : (if c = '\x7b' then d + 1 else if c = '\x7d' then d - 1 else d) = d := by
              rw [if_neg hc, if_neg hc2]
            rw [hD] at iheq ihpre
            have e1 : (c == '\x7b') = false := beq_eq_false_iff_ne.mpr hc
            have e2 : (c == '\x7d') = false := beq_eq_false_iff_ne.mpr hc2
            constructor
            · intro n
              cases n with
              | zero => simpa using hd
              | succ n =>
                have hpre := ihpre n
                simp [List.count_cons, e1, e2]
                omega
            · simp [List.count_cons, e1, e2]
              omega

lemma processOcc_some (cs : List Char) (p : Nat) (t : String × String × Nat)
    (h : processOcc cs p = some t) :
    t.2.2 = nlCount (cs.take p) + 1 ∧
    ∃ bstart b, scanBody (cs.drop (bstart + 1)) 1 = some b ∧ t.2.1 = strOf b := by
  simp only [processOcc] at h
  split at h
  next => simp at h
  next nm endOff hhdr =>
    split at h
    next => simp at h
    next bstart hbrace =>
      split at h
      next => simp at h
      next body hscan =>
        have := Option.some.inj h
        subst this
        exact ⟨rfl, bstart, body, hscan, rfl⟩

/-- C2: _find_derive_accounts_structs is total (never raises, by
    construction), carries for each returned triple the 1-based line number
    of the marker attribute itself, extracts a body whose braces are balanced
    at arbitrary depth (every prefix closes at most as many braces as it
    opens, and the whole body is balanced), and degrades to no result for a
    marker occurrence whenever the header search, the opening-brace search or
    the depth counting fails. -/
theorem c2_find_derive_accounts_structs (content : String) :
    (∀ t ∈ findDeriveAccountsStructs content,
       (∃ p ∈ markerOccs content.data,
          processOcc content.data p = some t ∧
          t.2.2 = nlCount (content.data.take p) + 1) ∧
       (∀ n, ((t.2.1.data.take n).count '\x7d') ≤ (t.2.1.data.take n).count '\x7b') ∧
       t.2.1.data.count '\x7b' = t.2.1.data.count '\x7d') ∧
    (findDeriveAccountsStructs content).length ≤ (markerOccs content.data).length ∧
    (∀ p, hdrSearch ((content.data.drop (p + deriveMarker.length)).take 500) = none →
       processOcc content.data p = none) ∧
    (∀ p nm endOff,
       hdrSearch ((content.data.drop (p + deriveMarker.length)).take 500) = some (nm, endOff) →
       findCharFrom content.data '\x7b' (p + deriveMarker.length + endOff) = none →
       processOcc content.data p = none) ∧
    (∀ p nm endOff bstart,
       hdrSearch ((content.data.drop (p + deriveMarker.length)).take 500) = some (nm, endOff) →
       findCharFrom content.data '\x7b' (p + deriveMarker.length + endOff) = some bstart →
       scanBody (content.data.drop (bstart + 1)) 1 = none →
       processOcc content.data p = none) := by
  refine ⟨?_, List.length_filterMap_le _ _, ?_, ?_, ?_⟩
  · intro t ht
    obtain ⟨p, hp, hproc⟩ := List.mem_filterMap.mp ht
    obtain ⟨hline, bstart, body, hscan, hbody⟩ := processOcc_some content.data p t hproc
    refine ⟨⟨p, hp, hproc, hline⟩, ?_, ?_⟩
    · intro n
      have hb : t.2.1.data = body := by rw [hbody]; rfl
      rw [hb]
      have := (scanBody_counts _ 1 body hscan (by omega)).1 n
      omega
    · have hb : t.2.1.data = body := by rw [hbody]; rfl
      rw [hb]
      have := (scanBody_counts _ 1 body hscan (by omega)).2
      omega
  · intro p h
    simp only [processOcc, h]
  · intro p nm endOff h1 h2
    simp only [processOcc, h1, h2]
  · intro p nm endOff bstart h1 h2 h3
    simp only [processOcc, h1, h2, h3]

def c2WitContent : String := "#[derive(Accounts)]\npub struct A \x7b\n x: u8,\n\x7d"

def c2WitTriple : String × String × Nat := ("A", "\n x: u8,\n", 1)

theorem c2_find_derive_accounts_structs_witness :
    c2WitTriple ∈ findDeriveAccountsStructs c2WitContent ∧
    ((∃ p ∈ markerOccs c2WitContent.data,
        processOcc c2WitContent.data p = some c2WitTriple ∧
        c2WitTriple.2.2 = nlCount (c2WitContent.data.take p) + 1) ∧
      (∀ n, ((c2WitTriple.2.1.data.take n).count '\x7d') ≤
        (c2WitTriple.2.1.data.take n).count '\x7b') ∧
      c2WitTriple.2.1.data.count '\x7b' = c2WitTriple.2.1.data.count '\x7d') := by
  have hm : c2WitTriple ∈ findDeriveAccountsStructs c2WitContent := by decide
  exact ⟨hm, (c2_find_derive_accounts_structs c2WitContent).1 c2WitTriple hm⟩

lemma psRun_append (ss : Nat) :
    ∀ (xs ys : List (List Char)) (st : PSState) (i : Nat),
      psRun ss st i (xs ++ ys) = psRun ss (psRun ss st i xs) (i + xs.length) ys := by
  intro xs
  induction xs with
  | nil => intro ys st i; simp [psRun]
  | cons x xs ih =>
    intro ys st i
    show psRun ss (psStep ss i st x) (i + 1) (xs ++ ys) =
      psRun ss (psRun ss (psStep ss i st x) (i + 1) xs) (i + (x :: xs).length) ys
    rw [ih]
    have hidx : i + (x :: xs).length = (i + 1) + xs.length := by
      simp [List.length_cons]
      omega
    rw [hidx]

lemma psStep_frame (ss i : Nat) (fs : List StructField) (a : List String) (ia : Bool)
    (pd : Int) (l : List Char) :
    psStep ss i ⟨fs, a, ia, pd⟩ l =
      { psStep ss i ⟨[], a, ia, pd⟩ l with
        fields := fs ++ (psStep ss i ⟨[], a, ia, pd⟩ l).fields } := by
  cases hf : fieldSearch (pyStrip l) <;> simp only [psStep, hf] <;> split_ifs <;> simp

lemma psStep_fields (ss i : Nat) (st : PSState) (l : List Char) :
    ∃ r, (psStep ss i st l).fields = st.fields ++ r := by
  obtain ⟨fs, a, ia, pd⟩ := st
  rw [psStep_frame]
  exact ⟨_, rfl⟩

lemma psRun_fields_ext (ss : Nat) :
    ∀ (ls : List (List Char)) (st : PSState) (i : Nat),
      ∃ r, (psRun ss st i ls).fields = st.fields ++ r := by
  intro ls
  induction ls with
  | nil => intro st i; exact ⟨[], by simp [psRun]⟩
  | cons l ls ih =>
    intro st i
    obtain ⟨r1, h1⟩ := psStep_fields ss i st l
    obtain ⟨r2, h2⟩ := ih (psStep ss i st l) (i + 1)
    exact ⟨r1 ++ r2, by simp [psRun, h2, h1]⟩

lemma psRun_frame (ss : Nat) :
    ∀ (ls : List (List Char)) (i : Nat) (fs : List StructField) (a : List String)
      (ia : Bool) (pd : Int),
      psRun ss ⟨fs, a, ia, pd⟩ i ls =
        { psRun ss ⟨[], a, ia, pd⟩ i ls with
          fields := fs ++ (psRun ss ⟨[], a, ia, pd⟩ i ls).fields } := by
  intro ls
  induction ls with
  | nil => intro i fs a ia pd; simp [psRun]
  | cons l ls ih =>
    intro i fs a ia pd
    simp only [psRun]
    rw [psStep_frame]
    rcases hstep : psStep ss i ⟨[], a, ia, pd⟩ l with ⟨f0, a0, ia0, pd0⟩
    simp only []
    rw [ih (i + 1) (fs ++ f0) a0 ia0 pd0]
    rw [ih (i + 1) f0 a0 ia0 pd0]
    simp

lemma psStep_rel (ss i : Nat) (a : List String) (pdA pdB : Int) (l : List Char) :
    (psStep ss i ⟨[], a, false, pdA⟩ l).fields = (psStep ss i ⟨[], a, false, pdB⟩ l).fields ∧
    (psStep ss i ⟨[], a, false, pdA⟩ l).currentAttrs =
      (psStep ss i ⟨[], a, false, pdB⟩ l).currentAttrs ∧
    (psStep ss i ⟨[], a, false, pdA⟩ l).inAttr = (psStep ss i ⟨[], a, false, pdB⟩ l).inAttr ∧
    ((psStep ss i ⟨[], a, false, pdA⟩ l).inAttr = true →
      (psStep ss i ⟨[], a, false, pdA⟩ l).parenDepth =
        (psStep ss i ⟨[], a, false, pdB⟩ l).parenDepth) := by
  cases hf : fieldSearch (pyStrip l) <;> simp only [psStep, hf] <;> split_ifs <;> simp

lemma psRun_depth_fields (ss : Nat) :
    ∀ (ls : List (List Char)) (i : Nat) (a : List String) (pdA pdB : Int),
      (psRun ss ⟨[], a, false, pdA⟩ i ls).fields =
        (psRun ss ⟨[], a, false, pdB⟩ i ls).fields := by
  intro ls
  induction ls with
  | nil => intro i a pdA pdB; rfl
  | cons l ls ih =>
    intro i a pdA pdB
    show (psRun ss (psStep ss i ⟨[], a, false, pdA⟩ l) (i + 1) ls).fields =
      (psRun ss (psStep ss i ⟨[], a, false, pdB⟩ l) (i + 1) ls).fields
    obtain ⟨h1, h2, h3, h4⟩ := psStep_rel ss i a pdA pdB l
    rcases hA : psStep ss i ⟨[], a, false, pdA⟩ l with ⟨fA, aA, iaA, dA⟩
    rcases hB : psStep ss i ⟨[], a, false, pdB⟩ l with ⟨fB, aB, iaB, dB⟩
    rw [hA, hB] at h1 h2 h3 h4
    simp only [] at h1 h2 h3 h4
    subst h1
    subst h2
    subst h3
    by_cases hia : iaA = true
    · rw [h4 hia]
    · have hfa : iaA = false := by
        cases iaA
        · rfl
        · exact absurd rfl hia
      subst hfa
      rw [psRun_frame ss ls (i + 1) fA aA false dA, psRun_frame ss ls (i + 1) fA aA false dB]
      simp only []
      rw [ih (i + 1) aA dA dB]

lemma isPrefixOf_of_prefix (l1 l2 s : List Char) (h12 : l1 <+: l2)
    (h : l2.isPrefixOf s = true) : l1.isPrefixOf s = true :=
  List.isPrefixOf_iff_prefix.mpr (h12.trans (List.isPrefixOf_iff_prefix.mp h))

/-- C5: in _parse_struct_fields, a non-blank, non-comment line that is not a
    doc comment, not an attribute line, not an attribute continuation (the
    parser is not inside a multi-line attribute) and not a field declaration
    clears the pending attribute accumulation: the fields parsed from the
    whole body are the fields parsed before that line followed by the fields
    of a fresh run (empty pending attributes) over the lines after it, so no
    attribute text from before the line can reach any later StructField. -/
theorem c5_attr_reset (body : String) (structStart : Nat) (pre : List (List Char))
    (bad : List Char) (post : List (List Char))
    (hsplit : splitLines body.data = pre ++ bad :: post)
    (hclean : (psRun structStart initPS 0 pre).inAttr = false)
    (hne : pyStrip bad ≠ [])
    (hcomment : ("//").data.isPrefixOf (pyStrip bad) = false)
    (hattr : ("#[").data.isPrefixOf (pyStrip bad) = false)
    (hfield : fieldSearch (pyStrip bad) = none) :
    parseStructFields body structStart =
      (psRun structStart initPS 0 pre).fields ++
        (psRun structStart initPS (pre.length + 1) post).fields := by
  unfold parseStructFields
  rw [hsplit, psRun_append]
  set st0 := psRun structStart initPS 0 pre with hst0
  have hdoc : ("///").data.isPrefixOf (pyStrip bad) = false := by
    cases hps : ("///").data.isPrefixOf (pyStrip bad)
    · rfl
    · exfalso
      have := isPrefixOf_of_prefix (("//").data) (("///").data) (pyStrip bad) (by decide) hps
      rw [hcomment] at this
      exact Bool.false_ne_true this
  have hempty : (pyStrip bad).isEmpty = false := by
    simpa [List.isEmpty_iff] using hne
  have hstep : psStep structStart (0 + pre.length) st0 bad = { st0 with currentAttrs := [] } := by
    simp only [psStep, hdoc, hclean, hattr, hfield, hempty, hcomment]
    simp
  show (psRun structStart (psStep structStart (0 + pre.length) st0 bad)
      (0 + pre.length + 1) post).fields = st0.fields ++ _
  rw [hstep]
  have hshape : ({ st0 with currentAttrs := ([] : List String) } : PSState) =
      ⟨st0.fields, [], false, st0.parenDepth⟩ := by
    show PSState.mk st0.fields [] st0.inAttr st0.parenDepth = _
    rw [hclean]
  rw [hshape]
  rw [psRun_frame structStart post (0 + pre.length + 1) st0.fields [] false st0.parenDepth]
  simp only []
  rw [psRun_depth_fields structStart post (0 + pre.length + 1) [] st0.parenDepth 0]
  have hidx : 0 + pre.length + 1 = pre.length + 1 := by omega
  rw [hidx]
  rfl

theorem c5_attr_reset_witness :
    parseStructFields ("#[account(mut)]\nimpl Foo;\npub x: u64,") 3 =
      (psRun 3 initPS 0 [("#[account(mut)]").data]).fields ++
        (psRun 3 initPS 2 [("pub x: u64,").data]).fields :=
  c5_attr_reset ("#[account(mut)]\nimpl Foo;\npub x: u64,") 3
    [("#[account(mut)]").data] (("impl Foo;").data) [("pub x: u64,").data]
    (by decide) (by decide) (by decide) (by decide) (by decide) (by decide)

/-- Sum of per-line paren-depth deltas, as accumulated by the multi-line
    attribute tracking of _parse_struct_fields. -/
def depthSum (ls : List (List Char)) : Int := (ls.map (fun l => pDiff (pyStrip l))).sum

lemma psRun_cons (ss : Nat) (st : PSState) (i : Nat) (l : List Char) (ls : List (List Char)) :
    psRun ss st i (l :: ls) = psRun ss (psStep ss i st l) (i + 1) ls := rfl

lemma notDocOfAttr (s : List Char) (h : ("#[").data.isPrefixOf s = true) :
    ("///").data.isPrefixOf s = false := by
  rcases List.isPrefixOf_iff_prefix.mp h with ⟨t, ht⟩
  cases hps : ("///").data.isPrefixOf s
  · rfl
  · rcases List.isPrefixOf_iff_prefix.mp hps with ⟨u, hu⟩
    rw [← ht] at hu
    simp at hu

lemma psStep_attrOpen (ss i : Nat) (st : PSState) (a : List Char)
    (hia : st.inAttr = false) (hA : ("#[").data.isPrefixOf (pyStrip a) = true) :
    psStep ss i st a =
      { st with currentAttrs := st.currentAttrs ++ [strOf (pyStrip a)],
                inAttr := decide (0 < pDiff (pyStrip a)),
                parenDepth := pDiff (pyStrip a) } := by
  simp only [psStep, notDocOfAttr (pyStrip a) hA, hia, hA]
  simp

lemma psStep_field (ss i : Nat) (st : PSState) (f nm ty : List Char)
    (hdoc : ("///").data.isPrefixOf (pyStrip f) = false)
    (hia : st.inAttr = false)
    (hattr : ("#[").data.isPrefixOf (pyStrip f) = false)
    (hf : fieldSearch (pyStrip f) = some (nm, ty)) :
    psStep ss i st f =
      { st with
        fields := st.fields ++
          [{ name := strOf nm
             type := strOf (rstripComma (pyStrip ty))
             line := ss + i + 1
             attrs := String.intercalate spaceSep st.currentAttrs }]
        currentAttrs := [] } := by
  simp only [psStep, hdoc, hia, hattr, hf]
  simp

lemma psRun_inattr (ss : Nat) :
    ∀ (mid : List (List Char)) (st : PSState) (i : Nat),
      st.inAttr = true →
      (∀ l ∈ mid, ("///").data.isPrefixOf (pyStrip l) = false) →
      (∀ j, j + 1 < mid.length → 0 < st.parenDepth + depthSum (mid.take (j + 1))) →
      st.parenDepth + depthSum mid ≤ 0 →
      mid ≠ [] →
      psRun ss st i mid =
        ⟨st.fields, st.currentAttrs ++ mid.map stripStr, false, 0⟩ := by
  intro mid
  induction mid with
  | nil => intro st i h1 h2 h3 h4 h5; exact absurd rfl h5
  | cons l ls ih =>
    intro st i h1 h2 h3 h4 h5
    have hdoc : ("///").data.isPrefixOf (pyStrip l) = false := h2 l (by simp)
    cases ls with
    | nil =>
      have hd : st.parenDepth + pDiff (pyStrip l) ≤ 0 := by
        simpa [depthSum] using h4
      have hstep : psStep ss i st l =
          ⟨st.fields, st.currentAttrs ++ [strOf (pyStrip l)], false, 0⟩ := by
        simp [psStep, hdoc, h1, hd]
      show psRun ss (psStep ss i st l) (i + 1) [] = _
      rw [hstep]
      simp [psRun, stripStr]
    | cons l2 ls2 =>
      have hdpos : 0 < st.parenDepth + pDiff (pyStrip l) := by
        have := h3 0 (by simp)
        simpa [depthSum] using this
      have hnle : ¬(st.parenDepth + pDiff (pyStrip l) ≤ 0) := by omega
      have hstep : psStep ss i st l =
          ⟨st.fields, st.currentAttrs ++ [strOf (pyStrip l)], st.inAttr,
            st.parenDepth + pDiff (pyStrip l)⟩ := by
        simp [psStep, hdoc, h1, hnle]
      show psRun ss (psStep ss i st l) (i + 1) (l2 :: ls2) = _
      rw [hstep]
      have hdoc2 : ∀ x ∈ l2 :: ls2, ("///").data.isPrefixOf (pyStrip x) = false :=
        fun x hx => h2 x (by simp [hx])
      have hpos2 : ∀ j, j + 1 < (l2 :: ls2).length →
          0 < (⟨st.fields, st.currentAttrs ++ [strOf (pyStrip l)], st.inAttr,
            st.parenDepth + pDiff (pyStrip l)⟩ : PSState).parenDepth +
            depthSum ((l2 :: ls2).take (j + 1)) := by
        intro j hj
        have h := h3 (j + 1) (by simpa using hj)
        show 0 < st.parenDepth + pDiff (pyStrip l) + depthSum ((l2 :: ls2).take (j + 1))
        simp only [depthSum, List.take_succ_cons, List.map_cons, List.sum_cons] at h ⊢
        omega
      have hend2 : (⟨st.fields, st.currentAttrs ++ [strOf (pyStrip l)], st.inAttr,
          st.parenDepth + pDiff (pyStrip l)⟩ : PSState).parenDepth +
            depthSum (l2 :: ls2) ≤ 0 := by
        show st.parenDepth + pDiff (pyStrip l) + depthSum (l2 :: ls2) ≤ 0
        simp only [depthSum, List.map_cons, List.sum_cons] at h4 ⊢
        omega
      rw [ih ⟨st.fields, st.currentAttrs ++ [strOf (pyStrip l)], st.inAttr,
        st.parenDepth + pDiff (pyStrip l)⟩ (i + 1) h1 hdoc2 hpos2 hend2 (by simp)]
      simp [stripStr]

lemma psRun_attrBlock (ss : Nat) :
    ∀ (mid : List (List Char)) (st : PSState) (i : Nat) (a : List Char),
      st.inAttr = false →
      ("#[").data.isPrefixOf (pyStrip a) = true →
      (∀ j, j < mid.length → 0 < pDiff (pyStrip a) + depthSum (mid.take j)) →
      pDiff (pyStrip a) + depthSum mid ≤ 0 →
      (∀ l ∈ mid, ("///").data.isPrefixOf (pyStrip l) = false) →
      ∃ pd, psRun ss st i (a :: mid) =
        ⟨st.fields, st.currentAttrs ++ (a :: mid).map stripStr, false, pd⟩ := by
  intro mid st i a hia hA hpos hend hdoc
  show ∃ pd, psRun ss (psStep ss i st a) (i + 1) mid = _
  rw [psStep_attrOpen ss i st a hia hA]
  cases mid with
  | nil =>
    have hd0 : pDiff (pyStrip a) ≤ 0 := by simpa [depthSum] using hend
    have hdec : decide (0 < pDiff (pyStrip a)) = false := by
      simp only [decide_eq_false_iff_not]
      omega
    refine ⟨pDiff (pyStrip a), ?_⟩
    rw [hdec]
    simp [psRun, stripStr]
  | cons m ms =>
    have hd0 : 0 < pDiff (pyStrip a) := by
      have := hpos 0 (by simp)
      simpa [depthSum] using this
    have hdec : decide (0 < pDiff (pyStrip a)) = true := by
      simp only [decide_eq_true_eq]
      exact hd0
    rw [hdec]
    refine ⟨0, ?_⟩
    have hrun := psRun_inattr ss (m :: ms)
      (⟨st.fields, st.currentAttrs ++ [strOf (pyStrip a)], true, pDiff (pyStrip a)⟩ : PSState)
      (i + 1) rfl hdoc (fun j hj => hpos (j + 1) hj) hend (by simp)
    rw [hrun]
    simp [stripStr]

/-- C1: a well-formed attribute whose parentheses balance across N = mid.length
    + 1 lines (depth stays positive after each line but the last, and closes on
    the last), reached while not inside another attribute, followed by a field
    declaration matching the name:type[,] shape, produces a StructField with
    that name and type, the line of the field declaration, and an attrs string
    that is the space-join of the pending attribute lines followed by all N
    stripped attribute lines.  The operation is total (never raises) and other
    unparseable lines are skipped by the remaining loop cases. -/
theorem c1_multiline_attribute_field (body : String) (structStart : Nat)
    (pre : List (List Char)) (a : List Char) (mid : List (List Char))
    (f : List Char) (tail : List (List Char)) (nm ty : List Char)
    (hsplit : splitLines body.data = pre ++ a :: (mid ++ f :: tail))
    (hclean : (psRun structStart initPS 0 pre).inAttr = false)
    (hA : ("#[").data.isPrefixOf (pyStrip a) = true)
    (hpos : ∀ j, j < mid.length → 0 < pDiff (pyStrip a) + depthSum (mid.take j))
    (hend : pDiff (pyStrip a) + depthSum mid ≤ 0)
    (hdoc : ∀ l ∈ mid, ("///").data.isPrefixOf (pyStrip l) = false)
    (hfdoc : ("///").data.isPrefixOf (pyStrip f) = false)
    (hfattr : ("#[").data.isPrefixOf (pyStrip f) = false)
    (hfield : fieldSearch (pyStrip f) = some (nm, ty)) :
    ∃ sf ∈ parseStructFields body structStart,
      sf.name = strOf nm ∧
      sf.type = strOf (rstripComma (pyStrip ty)) ∧
      sf.line = structStart + (pre.length + mid.length + 1) + 1 ∧
      ∃ pending, sf.attrs =
        String.intercalate spaceSep (pending ++ (a :: mid).map stripStr) := by
  unfold parseStructFields
  rw [hsplit, psRun_append]
  have hassoc : (a :: (mid ++ f :: tail)) = (a :: mid) ++ (f :: tail) := by simp
  rw [hassoc, psRun_append]
  obtain ⟨pd, hblock⟩ := psRun_attrBlock structStart mid
    (psRun structStart initPS 0 pre) (0 + pre.length) a hclean hA hpos hend hdoc
  rw [hblock]
  rw [psRun_cons]
  rw [psStep_field structStart _ _ f nm ty hfdoc rfl hfattr hfield]
  obtain ⟨r, hr⟩ := psRun_fields_ext structStart tail _ _
  rw [hr]
  refine ⟨{ name := strOf nm
            type := strOf (rstripComma (pyStrip ty))
            line := structStart + (0 + pre.length + (a :: mid).length) + 1
            attrs := String.intercalate spaceSep
              ((psRun structStart initPS 0 pre).currentAttrs ++ (a :: mid).map stripStr) },
    ?_, rfl, rfl, ?_, ⟨(psRun structStart initPS 0 pre).currentAttrs, rfl⟩⟩
  · apply List.mem_append_left
    apply List.mem_append_right
    simp only [List.mem_singleton]
  · show structStart + (0 + pre.length + (a :: mid).length) + 1 =
      structStart + (pre.length + mid.length + 1) + 1
    simp only [List.length_cons]
    omega

theorem c1_multiline_attribute_field_witness :
    ∃ sf ∈ parseStructFields ("#[account(\nmut,\n)]\npub data: u64,\n") 7,
      sf.name = "data" ∧ sf.type = "u64" ∧ sf.line = 11 ∧
      ∃ pending, sf.attrs =
        String.intercalate spaceSep (pending ++ ["#[account(", "mut,", ")]"]) :=
  c1_multiline_attribute_field ("#[account(\nmut,\n)]\npub data: u64,\n") 7
    [] (("#[account(").data) [("mut,").data, (")]").data] (("pub data: u64,").data)
    [[]] (("data").data) (("u64").data)
    (by decide) (by decide) (by decide) (by decide) (by decide) (by decide)
    (by decide) (by decide) (by decide)

/-- C4: an account attribute combining init_if_needed with a token:: or
    associated_token:: marker yields an ANCHOR-001 High finding at the
    attribute's own line when neither the delegate-absence nor the
    close-authority-absence constraint pattern occurs in the windowed context
    (the code's lines[L-30 : L+30] slice around the match line L), and yields
    no finding for that attribute when both patterns are present. -/
theorem c4_init_if_needed_window (file content : String) (p : Nat) (g : List Char)
    (hm : (p, g) ∈ aaMatches content.data)
    (hinit : hasSub (("init_if_needed").data) g = true)
    (htok : (hasTokenMarker (("token").data) g ||
      hasTokenMarker (("associated_token").data) g) = true) :
    ((hasSafetyConstraint ((".delegate").data) (initWindow content.data p) = false ∧
      hasSafetyConstraint ((".close_authority").data) (initWindow content.data p) = false) →
      ∃ fnd, initProcessMatch file content.data (p, g) = some fnd ∧
        fnd ∈ initIfNeededScan file content ∧
        fnd.id = "ANCHOR-001" ∧ fnd.severity = "High" ∧
        fnd.line = nlCount (content.data.take p) + 1) ∧
    ((hasSafetyConstraint ((".delegate").data) (initWindow content.data p) = true ∧
      hasSafetyConstraint ((".close_authority").data) (initWindow content.data p) = true) →
      initProcessMatch file content.data (p, g) = none) := by
  have hguard : (!(hasTokenMarker (("token").data) g) &&
      !(hasTokenMarker (("associated_token").data) g)) = false := by
    cases h1 : hasTokenMarker (("token").data) g <;>
      cases h2 : hasTokenMarker (("associated_token").data) g <;> simp_all
  constructor
  · rintro ⟨hdel, hclose⟩
    have heq : initProcessMatch file content.data (p, g) =
        some (mkInitFinding file (nlCount (content.data.take p) + 1)
          (if hasTokenMarker (("associated_token").data) g then "Associated_Token" else "Token")
          (String.intercalate commaSep (["delegate"] ++ ["close_authority"]))) := by
      simp only [initProcessMatch, hinit, hguard, hdel, hclose]
      simp
    exact ⟨_, heq, List.mem_filterMap.mpr ⟨(p, g), hm, heq⟩, rfl, rfl, rfl⟩
  · rintro ⟨hdel, hclose⟩
    simp only [initProcessMatch, hinit, hguard, hdel, hclose]
    simp

theorem c4_init_if_needed_window_witness :
    ∃ fnd, initProcessMatch ("f.rs") (("#[account(init_if_needed, token::mint = m)]").data)
        (0, ("init_if_needed, token::mint = m").data) = some fnd ∧
      fnd ∈ initIfNeededScan ("f.rs") ("#[account(init_if_needed, token::mint = m)]") ∧
      fnd.id = "ANCHOR-001" ∧ fnd.severity = "High" ∧ fnd.line = 1 :=
  (c4_init_if_needed_window ("f.rs") ("#[account(init_if_needed, token::mint = m)]")
    0 (("init_if_needed, token::mint = m").data)
    (by decide) (by decide) (by decide)).1 ⟨by decide, by decide⟩

lemma moRun_cons_attr (file sn : String) (start : Nat) (attrs : List String) (i : Nat)
    (l : List Char) (rest : List (List Char))
    (hc : (("#[").data.isPrefixOf (pyStrip l) || ("///").data.isPrefixOf (pyStrip l)) = true) :
    moRun file sn start attrs i (l :: rest) =
      moRun file sn start (attrs ++ [strOf (pyStrip l)]) (i + 1) rest := by
  simp only [moRun, hc]
  simp

lemma moRun_cons_none (file sn : String) (start : Nat) (attrs : List String) (i : Nat)
    (l : List Char) (rest : List (List Char))
    (hc : (("#[").data.isPrefixOf (pyStrip l) || ("///").data.isPrefixOf (pyStrip l)) = false)
    (hm : rawHandleMatch (pyStrip l) = none) :
    moRun file sn start attrs i (l :: rest) = moRun file sn start [] (i + 1) rest := by
  simp only [moRun, hc, hm]
  simp

lemma moRun_cons_skip (file sn : String) (start : Nat) (attrs : List String) (i : Nat)
    (l : List Char) (rest : List (List Char)) (f2 t2 : String)
    (hc : (("#[").data.isPrefixOf (pyStrip l) || ("///").data.isPrefixOf (pyStrip l)) = false)
    (hm : rawHandleMatch (pyStrip l) = some (f2, t2))
    (hg : (moAllowGuard f2 ||
      rawSuppress (String.intercalate spaceSep attrs).data) = true) :
    moRun file sn start attrs i (l :: rest) = moRun file sn start [] (i + 1) rest := by
  simp only [moRun, hc, hm, hg]
  simp

lemma moRun_cons_hit (file sn : String) (start : Nat) (attrs : List String) (i : Nat)
    (l : List Char) (rest : List (List Char)) (f2 t2 : String)
    (hc : (("#[").data.isPrefixOf (pyStrip l) || ("///").data.isPrefixOf (pyStrip l)) = false)
    (hm : rawHandleMatch (pyStrip l) = some (f2, t2))
    (hg : (moAllowGuard f2 ||
      rawSuppress (String.intercalate spaceSep attrs).data) = false) :
    moRun file sn start attrs i (l :: rest) =
      mkMoFinding sn f2 t2 file (start + i + 1) :: moRun file sn start [] (i + 1) rest := by
  simp only [moRun, hc, hm, hg]
  simp

lemma moRun_shape (file sn : String) (start : Nat) :
    ∀ (ls : List (List Char)) (attrs : List String) (i : Nat) (fnd : Finding),
      fnd ∈ moRun file sn start attrs i ls →
      ∃ fname tname ln, fnd = mkMoFinding sn fname tname file ln ∧
        moAllowGuard fname = false := by
  intro ls
  induction ls with
  | nil => intro attrs i fnd h; simp [moRun] at h
  | cons l rest ih =>
    intro attrs i fnd h
    by_cases hc : (("#[").data.isPrefixOf (pyStrip l) ||
        ("///").data.isPrefixOf (pyStrip l)) = true
    · rw [moRun_cons_attr file sn start attrs i l rest hc] at h
      exact ih _ _ _ h
    · have hcf : (("#[").data.isPrefixOf (pyStrip l) ||
          ("///").data.isPrefixOf (pyStrip l)) = false := by
        cases hx : (("#[").data.isPrefixOf (pyStrip l) || ("///").data.isPrefixOf (pyStrip l))
        · rfl
        · exact absurd hx hc
      cases hm : rawHandleMatch (pyStrip l) with
      | none =>
        rw [moRun_cons_none file sn start attrs i l rest hcf hm] at h
        exact ih _ _ _ h
      | some pr =>
        obtain ⟨f2, t2⟩ := pr
        by_cases hg : (moAllowGuard f2 ||
            rawSuppress (String.intercalate spaceSep attrs).data) = true
        · rw [moRun_cons_skip file sn start attrs i l rest f2 t2 hcf hm hg] at h
          exact ih _ _ _ h
        · have hgf : (moAllowGuard f2 ||
              rawSuppress (String.intercalate spaceSep attrs).data) = false := by
            cases hx : (moAllowGuard f2 ||
                rawSuppress (String.intercalate spaceSep attrs).data)
            · rfl
            · exact absurd hx hg
          rw [moRun_cons_hit file sn start attrs i l rest f2 t2 hcf hm hgf] at h
          rcases List.mem_cons.mp h with hh | hh
          · refine ⟨f2, t2, start + i + 1, hh, ?_⟩
            cases hx : moAllowGuard f2
            · rfl
            · rw [hx] at hgf
              simp at hgf
          · exact ih _ _ _ hh

lemma moRun_mem (file sn : String) (start : Nat) :
    ∀ (ls : List (List Char)) (attrs : List String) (i j : Nat) (fname tname : String),
      j < ls.length →
      rawHandleMatch (pyStrip (ls.getD j [])) = some (fname, tname) →
      ((("#[").data.isPrefixOf (pyStrip (ls.getD j [])) ||
        ("///").data.isPrefixOf (pyStrip (ls.getD j []))) = false) →
      moAllowGuard fname = false →
      rawSuppress (String.intercalate spaceSep (moAttrsFrom attrs ls j)).data = false →
      mkMoFinding sn fname tname file (start + (i + j) + 1) ∈ moRun file sn start attrs i ls := by
  intro ls
  induction ls with
  | nil => intro attrs i j fname tname hj; simp at hj
  | cons l rest ih =>
    intro attrs i j fname tname hj hmatch hnattr hguard hsup
    cases j with
    | zero =>
      simp only [List.getD_cons_zero] at hmatch hnattr
      have hsup0 : rawSuppress (String.intercalate spaceSep attrs).data = false := by
        simpa [moAttrsFrom] using hsup
      have hg : (moAllowGuard fname ||
          rawSuppress (String.intercalate spaceSep attrs).data) = false := by
        rw [hguard, hsup0]
        rfl
      rw [moRun_cons_hit file sn start attrs i l rest fname tname hnattr hmatch hg]
      simp
    | succ j2 =>
      simp only [List.getD_cons_succ] at hmatch hnattr
      have hj2 : j2 < rest.length := by simpa using hj
      have harith : start + (i + (j2 + 1)) + 1 = start + ((i + 1) + j2) + 1 := by omega
      rw [harith]
      by_cases hc : (("#[").data.isPrefixOf (pyStrip l) ||
          ("///").data.isPrefixOf (pyStrip l)) = true
      · rw [moRun_cons_attr file sn start attrs i l rest hc]
        have hsup2 : rawSuppress (String.intercalate spaceSep
            (moAttrsFrom (attrs ++ [strOf (pyStrip l)]) rest j2)).data = false := by
          have hrw : moAttrsFrom attrs (l :: rest) (j2 + 1) =
              moAttrsFrom (attrs ++ [strOf (pyStrip l)]) rest j2 := by
            simp only [moAttrsFrom, hc]
            simp
          rw [hrw] at hsup
          exact hsup
        exact ih (attrs ++ [strOf (pyStrip l)]) (i + 1) j2 fname tname hj2 hmatch hnattr
          hguard hsup2
      · have hcf : (("#[").data.isPrefixOf (pyStrip l) ||
            ("///").data.isPrefixOf (pyStrip l)) = false := by
          cases hx : (("#[").data.isPrefixOf (pyStrip l) || ("///").data.isPrefixOf (pyStrip l))
          · rfl
          · exact absurd hx hc
        have hsup2 : rawSuppress (String.intercalate spaceSep
            (moAttrsFrom [] rest j2)).data = false := by
          have hrw : moAttrsFrom attrs (l :: rest) (j2 + 1) = moAttrsFrom [] rest j2 := by
            simp only [moAttrsFrom, hcf]
            simp
          rw [hrw] at hsup
          exact hsup
        have hih := ih [] (i + 1) j2 fname tname hj2 hmatch hnattr hguard hsup2
        cases hm : rawHandleMatch (pyStrip l) with
        | none =>
          rw [moRun_cons_none file sn start attrs i l rest hcf hm]
          exact hih
        | some pr =>
          obtain ⟨f2, t2⟩ := pr
          by_cases hg : (moAllowGuard f2 ||
              rawSuppress (String.intercalate spaceSep attrs).data) = true
          · rw [moRun_cons_skip file sn start attrs i l rest f2 t2 hcf hm hg]
            exact hih
          · have hgf : (moAllowGuard f2 ||
                rawSuppress (String.intercalate spaceSep attrs).data) = false := by
              cases hx : (moAllowGuard f2 ||
                  rawSuppress (String.intercalate spaceSep attrs).data)
              · rfl
              · exact absurd hx hg
            rw [moRun_cons_hit file sn start attrs i l rest f2 t2 hcf hm hgf]
            exact List.mem_cons_of_mem _ hih

/-- C6: Detector F (ANCHOR-006) only ever emits findings for fields that pass
    its allow-list — so a field named system_program, or any field whose name
    ends in _program, is never flagged regardless of constraints — while a
    field named data of raw unchecked-handle type inside an extracted
    account-declaration block, whose preceding accumulated attribute lines
    carry no signer constraint, no owner constraint and no CHECK doc-comment,
    always yields its (High, ANCHOR-006) finding. -/
theorem c6_missing_owner_allowlist (file content : String) :
    (∀ fnd ∈ missingOwnerScan file content,
       ∃ fname tname sn ln, fnd = mkMoFinding sn fname tname file ln ∧
         moAllowGuard fname = false ∧
         fname ≠ "system_program" ∧ strEndsWith fname ("_program") = false) ∧
    (∀ sn bodyS start i fname tname,
       (sn, bodyS, start) ∈ findDeriveAccountsStructs content →
       i < (splitLines bodyS.data).length →
       rawHandleMatch (pyStrip ((splitLines bodyS.data).getD i [])) = some (fname, tname) →
       ((("#[").data.isPrefixOf (pyStrip ((splitLines bodyS.data).getD i [])) ||
         ("///").data.isPrefixOf (pyStrip ((splitLines bodyS.data).getD i []))) = false) →
       fname = "data" →
       rawSuppress (String.intercalate spaceSep (moAttrsAt (splitLines bodyS.data) i)).data
         = false →
       mkMoFinding sn fname tname file (start + i + 1) ∈ missingOwnerScan file content) := by
  constructor
  · intro fnd h
    obtain ⟨s, hs, hrun⟩ := List.mem_flatMap.mp h
    obtain ⟨fname, tname, ln, he, hg⟩ := moRun_shape file s.1 s.2.2 _ [] 0 fnd hrun
    refine ⟨fname, tname, s.1, ln, he, hg, ?_, ?_⟩
    · intro heq
      rw [heq] at hg
      exact absurd hg (by decide)
    · cases hx : strEndsWith fname ("_program")
      · rfl
      · exfalso
        have : moAllowGuard fname = true := by
          simp [moAllowGuard, hx]
        rw [this] at hg
        exact Bool.true_eq_false.mp hg
  · intro sn bodyS start i fname tname hmem hi hmatch hnattr hname hsup
    have hguard : moAllowGuard fname = false := by
      rw [hname]
      decide
    have h := moRun_mem file sn start (splitLines bodyS.data) [] 0 i fname tname hi
      hmatch hnattr hguard hsup
    rw [Nat.zero_add] at h
    exact List.mem_flatMap.mpr ⟨(sn, bodyS, start), hmem, h⟩

theorem c6_missing_owner_allowlist_witness :
    mkMoFinding ("W") ("data") ("AccountInfo") ("f.rs") 3 ∈
      missingOwnerScan ("f.rs")
        ("#[derive(Accounts)]\npub struct W \x7b\n    pub data: AccountInfo<\x27info>,\n\x7d\n") :=
  (c6_missing_owner_allowlist ("f.rs")
    ("#[derive(Accounts)]\npub struct W \x7b\n    pub data: AccountInfo<\x27info>,\n\x7d\n")).2
    ("W") ("\n    pub data: AccountInfo<\x27info>,\n") 1 1 ("data") ("AccountInfo")
    (by decide) (by decide) (by decide) (by decide) rfl (by decide)

lemma tcLine_line (file sn : String) (start : Nat) (lines : List (List Char)) (j : Nat)
    (fnd : Finding) (h : tcLine file sn start lines j = some fnd) :
    fnd.line = start + j + 1 := by
  simp only [tcLine] at h
  split at h
  next => exact absurd h (by simp)
  next fname tname heq =>
    by_cases h1 : tcAllowGuard fname = true
    · rw [if_pos h1] at h
      exact absurd h (by simp)
    · rw [if_neg h1] at h
      by_cases h2 : rawSuppress (tcContext lines j) = true
      · rw [if_pos h2] at h
        exact absurd h (by simp)
      · rw [if_neg h2] at h
        have hh := Option.some.inj h
        subst hh
        rfl

lemma tcBody_mem_iff (file sn : String) (start : Nat) (lines : List (List Char)) (i : Nat)
    (fname tname : String)
    (hi : i < lines.length)
    (hmatch : rawHandleMatch (lines.getD i []) = some (fname, tname))
    (hguard : tcAllowGuard fname = false) :
    mkTcFinding sn fname tname file (start + i + 1) ∈ tcBody file sn start lines ↔
      rawSuppress (tcContext lines i) = false := by
  have heval : tcLine file sn start lines i =
      (if tcAllowGuard fname then none
       else if rawSuppress (tcContext lines i) then none
       else some (mkTcFinding sn fname tname file (start + i + 1))) := by
    simp only [tcLine]
    rw [hmatch]
  have hng : ¬(tcAllowGuard fname = true) := by
    rw [hguard]
    exact Bool.false_ne_true
  constructor
  · intro h
    obtain ⟨j, hj, hline⟩ := List.mem_filterMap.mp h
    have hlj : (mkTcFinding sn fname tname file (start + i + 1)).line = start + j + 1 :=
      tcLine_line file sn start lines j _ hline
    have heq2 : start + i + 1 = start + j + 1 := hlj
    have hij : j = i := by omega
    rw [hij] at hline
    rw [heval] at hline
    rw [if_neg hng] at hline
    cases hs : rawSuppress (tcContext lines i)
    · rfl
    · rw [if_pos hs] at hline
      exact absurd hline (by simp)
  · intro hs
    apply List.mem_filterMap.mpr
    refine ⟨i, List.mem_range.mpr hi, ?_⟩
    rw [heval, if_neg hng, if_neg (by rw [hs]; exact Bool.false_ne_true)]

def c8CexContent : String :=
  "#[derive(Accounts)]\npub struct V \x7b\n    pub data: AccountInfo<\x27info>,\n    #[account(signer)]\n    pub auth: AccountInfo<\x27info>,\n\x7d\n"

/-- C8 counterexample: the claim reads the suppression window as ±10 lines
    around the field's line, but the code looks only backward
    (lines[max(0, i-10) : i+1]).  In this file the field data at line 3 is
    followed one line later by a signer constraint — inside the claimed ±10
    window, as the second conjunct records for file lines 1..13 — yet the
    detector still emits the ANCHOR-004 finding for line 3 instead of
    suppressing it. -/
theorem c8_type_cosplay_counterexample :
    typeCosplayScan ("a.rs") c8CexContent =
      [mkTcFinding ("V") ("data") ("AccountInfo") ("a.rs") 3] ∧
    hasWord (("signer").data)
      (List.intercalate [('\n')] ((splitLines c8CexContent.data).take 13)) = true := by
  constructor
  · decide
  · decide

/-- C8 (amended): Detector D flags a raw-handle field whose name passes the
    allow-list exactly when none of the three suppressors (signer constraint,
    owner constraint, CHECK comment) occurs in the backward context window
    lines[max(0, i-10) : i+1] — the 10 lines preceding the field through the
    field's own line, not a symmetric ±10 window. -/
theorem c8_type_cosplay_backward_window (file content : String) :
    (typeCosplayScan file content = (findDeriveAccountsStructs content).flatMap
      (fun s => tcBody file s.1 s.2.2 (splitLines s.2.1.data))) ∧
    (∀ (sn : String) (start : Nat) (lines : List (List Char)) (i : Nat)
       (fname tname : String),
      i < lines.length →
      rawHandleMatch (lines.getD i []) = some (fname, tname) →
      tcAllowGuard fname = false →
      (mkTcFinding sn fname tname file (start + i + 1) ∈ tcBody file sn start lines ↔
        rawSuppress (tcContext lines i) = false)) := by
  exact ⟨rfl, fun sn start lines i fname tname hi hm hg =>
    tcBody_mem_iff file sn start lines i fname tname hi hm hg⟩

theorem c8_type_cosplay_backward_window_witness :
    mkTcFinding ("W") ("data") ("AccountInfo") ("f.rs") (1 + 1 + 1) ∈
      tcBody ("f.rs") ("W") 1
        (splitLines (("\n    pub data: AccountInfo<\x27info>,\n").data)) ↔
      rawSuppress (tcContext
        (splitLines (("\n    pub data: AccountInfo<\x27info>,\n").data)) 1) = false :=
  (c8_type_cosplay_backward_window ("f.rs") ("")).2 ("W") 1
    (splitLines (("\n    pub data: AccountInfo<\x27info>,\n").data)) 1
    ("data") ("AccountInfo") (by decide) (by decide) (by decide)

def keysOf {V : Type} (d : List (String × V)) : List String := d.map Prod.fst

lemma dictInsert_keys_mem {V : Type} (k : String) (v : V) :
    ∀ (d : List (String × V)) (x : String),
      x ∈ keysOf (dictInsert k v d) ↔ x = k ∨ x ∈ keysOf d := by
  intro d
  induction d with
  | nil => intro x; simp [dictInsert, keysOf]
  | cons p rest ih =>
    obtain ⟨k0, v0⟩ := p
    intro x
    by_cases hk : k0 = k
    · subst hk
      simp [dictInsert, keysOf]
    · simp only [dictInsert, if_neg hk, keysOf, List.map_cons, List.mem_cons]
      have h2 := ih x
      simp only [keysOf] at h2
      rw [h2]
      tauto

lemma dictInsert_keys_nodup {V : Type} (k : String) (v : V) :
    ∀ (d : List (String × V)), (keysOf d).Nodup → (keysOf (dictInsert k v d)).Nodup := by
  intro d
  induction d with
  | nil => intro h; simp [dictInsert, keysOf]
  | cons p rest ih =>
    obtain ⟨k0, v0⟩ := p
    intro h
    simp only [keysOf, List.map_cons, List.nodup_cons] at h
    by_cases hk : k0 = k
    · subst hk
      have hins : dictInsert k0 v ((k0, v0) :: rest) = (k0, v) :: rest := by
        simp [dictInsert]
      rw [hins]
      simp only [keysOf, List.map_cons, List.nodup_cons]
      exact h
    · simp only [dictInsert, if_neg hk, keysOf, List.map_cons, List.nodup_cons]
      refine ⟨?_, ih h.2⟩
      intro hmem
      rcases (dictInsert_keys_mem k v rest k0).mp hmem with heq | hmem2
      · exact hk heq
      · exact h.1 hmem2

/-- One of the two dict folds of the close_reinit field loop, selected by
    which flag of the event drives it. -/
def dictFold (sel : String × (String × String × Nat) × Bool × Bool → Bool) :
    List (String × (String × String × Nat) × Bool × Bool) →
    List (String × (String × String × Nat)) → List (String × (String × String × Nat))
  | [], d => d
  | ev :: evs, d => dictFold sel evs (if sel ev then dictInsert ev.1 ev.2.1 d else d)

lemma crDicts_eq_dictFold :
    ∀ (evs : List (String × (String × String × Nat) × Bool × Bool))
      (acc : List (String × (String × String × Nat)) × List (String × (String × String × Nat))),
      evs.foldl (fun acc ev =>
        ((if ev.2.2.1 then dictInsert ev.1 ev.2.1 acc.1 else acc.1),
         (if ev.2.2.2 then dictInsert ev.1 ev.2.1 acc.2 else acc.2))) acc =
        (dictFold (fun ev => ev.2.2.1) evs acc.1, dictFold (fun ev => ev.2.2.2) evs acc.2) := by
  intro evs
  induction evs with
  | nil => intro acc; simp [dictFold]
  | cons ev evs ih =>
    intro acc
    simp only [List.foldl_cons, dictFold]
    rw [ih]

lemma dictFold_keys_mem (sel : String × (String × String × Nat) × Bool × Bool → Bool) :
    ∀ (evs : List (String × (String × String × Nat) × Bool × Bool))
      (d : List (String × (String × String × Nat))) (x : String),
      x ∈ keysOf (dictFold sel evs d) ↔
        x ∈ keysOf d ∨ ∃ ev ∈ evs, sel ev = true ∧ ev.1 = x := by
  intro evs
  induction evs with
  | nil => intro d x; simp [dictFold]
  | cons ev evs ih =>
    intro d x
    show x ∈ keysOf (dictFold sel evs (if sel ev then dictInsert ev.1 ev.2.1 d else d)) ↔ _
    by_cases hsel : sel ev = true
    · rw [if_pos hsel, ih]
      simp only [dictInsert_keys_mem, List.mem_cons]
      constructor
      · rintro ((rfl | hd) | ⟨e, he, hs, rfl⟩)
        · exact Or.inr ⟨ev, Or.inl rfl, hsel, rfl⟩
        · exact Or.inl hd
        · exact Or.inr ⟨e, Or.inr he, hs, rfl⟩
      · rintro (hd | ⟨e, (rfl | he), hs, rfl⟩)
        · exact Or.inl (Or.inr hd)
        · exact Or.inl (Or.inl rfl)
        · exact Or.inr ⟨e, he, hs, rfl⟩
    · rw [if_neg hsel, ih]
      simp only [List.mem_cons]
      constructor
      · rintro (hd | ⟨e, he, hs, rfl⟩)
        · exact Or.inl hd
        · exact Or.inr ⟨e, Or.inr he, hs, rfl⟩
      · rintro (hd | ⟨e, (rfl | he), hs, rfl⟩)
        · exact Or.inl hd
        · exact absurd hs hsel
        · exact Or.inr ⟨e, he, hs, rfl⟩

lemma dictFold_keys_nodup (sel : String × (String × String × Nat) × Bool × Bool → Bool) :
    ∀ (evs : List (String × (String × String × Nat) × Bool × Bool))
      (d : List (String × (String × String × Nat))),
      (keysOf d).Nodup → (keysOf (dictFold sel evs d)).Nodup := by
  intro evs
  induction evs with
  | nil => intro d h; exact h
  | cons ev evs ih =>
    intro d h
    show (keysOf (dictFold sel evs (if sel ev then dictInsert ev.1 ev.2.1 d else d))).Nodup
    by_cases hsel : sel ev = true
    · rw [if_pos hsel]
      exact ih _ (dictInsert_keys_nodup ev.1 ev.2.1 d h)
    · rw [if_neg hsel]
      exact ih _ h

lemma crDicts_fst (bs : List (String × String × Nat)) :
    (crDicts bs).1 = dictFold (fun ev => ev.2.2.1) (crEvents bs) [] := by
  unfold crDicts
  rw [crDicts_eq_dictFold]

lemma crDicts_snd (bs : List (String × String × Nat)) :
    (crDicts bs).2 = dictFold (fun ev => ev.2.2.2) (crEvents bs) [] := by
  unfold crDicts
  rw [crDicts_eq_dictFold]

lemma crDicts_keys_nodup (bs : List (String × String × Nat)) :
    (keysOf (crDicts bs).1).Nodup := by
  rw [crDicts_fst]
  exact dictFold_keys_nodup _ (crEvents bs) [] (by simp [keysOf])

lemma crOverlap_nodup (bs : List (String × String × Nat)) : (crOverlap bs).Nodup :=
  (crDicts_keys_nodup bs).filter _

lemma crOverlap_mem (bs : List (String × String × Nat)) (t : String) :
    t ∈ crOverlap bs ↔
      t ∈ (crDicts bs).1.map Prod.fst ∧ t ∈ (crDicts bs).2.map Prod.fst := by
  unfold crOverlap
  rw [List.mem_filter]
  constructor
  · rintro ⟨h1, h2⟩
    exact ⟨h1, by simpa using h2⟩
  · rintro ⟨h1, h2⟩
    exact ⟨h1, by simpa using h2⟩

lemma crEvents_append (bs1 bs2 : List (String × String × Nat)) :
    crEvents (bs1 ++ bs2) = crEvents bs1 ++ crEvents bs2 := by
  simp [crEvents]

lemma crKeys_toFinset_swap (sel : String × (String × String × Nat) × Bool × Bool → Bool)
    (bs1 bs2 : List (String × String × Nat)) :
    (keysOf (dictFold sel (crEvents (bs1 ++ bs2)) [])).toFinset =
      (keysOf (dictFold sel (crEvents (bs2 ++ bs1)) [])).toFinset := by
  have hnil : ∀ y : String, (y ∈ keysOf ([] : List (String × (String × String × Nat)))) = False := by
    simp [keysOf]
  ext x
  simp only [List.mem_toFinset, dictFold_keys_mem, crEvents_append, List.mem_append,
    hnil, false_or]
  constructor
  · rintro ⟨e, (he | he), hs, rfl⟩
    · exact ⟨e, Or.inr he, hs, rfl⟩
    · exact ⟨e, Or.inl he, hs, rfl⟩
  · rintro ⟨e, (he | he), hs, rfl⟩
    · exact ⟨e, Or.inr he, hs, rfl⟩
    · exact ⟨e, Or.inl he, hs, rfl⟩

lemma crOverlap_length_card (bs : List (String × String × Nat)) :
    (crOverlap bs).length =
      ((keysOf (crDicts bs).1).toFinset ∩ (keysOf (crDicts bs).2).toFinset).card := by
  have hnd := crOverlap_nodup bs
  rw [← List.toFinset_card_of_nodup hnd]
  congr 1
  ext x
  simp only [List.mem_toFinset, Finset.mem_inter]
  rw [crOverlap_mem]
  rfl

/-- C7: close_reinit emits exactly one finding per overlapping base type —
    the scan factors through closeReinitCore, whose output is the map of its
    finding constructor over the duplicate-free list of base types present in
    both the close dict and the init_if_needed dict — and the number of
    findings is invariant under swapping two groups of blocks, in particular
    under swapping the block carrying close with the block carrying
    init_if_needed. -/
theorem c7_close_reinit_one_per_type :
    (∀ (file content : String), closeReinitScan file content =
        closeReinitCore file (findDeriveAccountsStructs content)) ∧
    (∀ (file : String) (bs : List (String × String × Nat)),
        closeReinitCore file bs = (crOverlap bs).map (crMk file bs)) ∧
    (∀ bs : List (String × String × Nat), (crOverlap bs).Nodup) ∧
    (∀ (bs : List (String × String × Nat)) (t : String), t ∈ crOverlap bs ↔
        t ∈ (crDicts bs).1.map Prod.fst ∧ t ∈ (crDicts bs).2.map Prod.fst) ∧
    (∀ (file : String) (bs : List (String × String × Nat)),
        (closeReinitCore file bs).length = (crOverlap bs).length) ∧
    (∀ (file : String) (bs1 bs2 : List (String × String × Nat)),
        (closeReinitCore file (bs1 ++ bs2)).length =
          (closeReinitCore file (bs2 ++ bs1)).length) := by
  refine ⟨fun file content => rfl, fun file bs => rfl, crOverlap_nodup, crOverlap_mem,
    fun file bs => by simp [closeReinitCore], ?_⟩
  intro file bs1 bs2
  have h1 : (closeReinitCore file (bs1 ++ bs2)).length = (crOverlap (bs1 ++ bs2)).length := by
    simp [closeReinitCore]
  have h2 : (closeReinitCore file (bs2 ++ bs1)).length = (crOverlap (bs2 ++ bs1)).length := by
    simp [closeReinitCore]
  rw [h1, h2, crOverlap_length_card, crOverlap_length_card]
  rw [crDicts_fst, crDicts_snd, crDicts_fst, crDicts_snd]
  rw [crKeys_toFinset_swap (fun ev => ev.2.2.1) bs1 bs2,
    crKeys_toFinset_swap (fun ev => ev.2.2.2) bs1 bs2]

lemma initProcessMatch_shape (file : String) (cs : List Char) (m : Nat × List Char)
    (f : Finding) (h : initProcessMatch file cs m = some f) :
    f.severity = "High" ∧ f.id = "ANCHOR-001" := by
  simp only [initProcessMatch] at h
  split_ifs at h
  all_goals cases h
  all_goals exact ⟨rfl, rfl⟩

lemma initScan_shape (file content : String) (f : Finding)
    (h : f ∈ initIfNeededScan file content) :
    f.severity = "High" ∧ f.id = "ANCHOR-001" := by
  obtain ⟨m, _, hm⟩ := List.mem_filterMap.mp h
  exact initProcessMatch_shape file content.data m f hm

lemma dupScan_shape (file content : String) (f : Finding)
    (h : f ∈ duplicateMutableScan file content) :
    f.severity = "Medium" ∧ f.id = "ANCHOR-002" := by
  obtain ⟨s, _, hs⟩ := List.mem_flatMap.mp h
  simp only [dupStructFindings] at hs
  split_ifs at hs
  · simp at hs
  · obtain ⟨t, _, heq⟩ := List.mem_filterMap.mp hs
    cases hd : dupFirstMut (extractAccountType t.2.1)
        ((((parseStructFields s.2.1 s.2.2).filter (fun f =>
          !(hasSub (("init_if_needed").data) f.attrs.data) &&
            hasWord (("mut").data) f.attrs.data)).map (fun f => (f.name, f.type, f.line)))) with
    | none => rw [hd] at heq; cases heq
    | some mb =>
      rw [hd] at heq
      cases heq
      exact ⟨rfl, rfl⟩

lemma reallocScan_shape (file content : String) (f : Finding)
    (h : f ∈ reallocPayerScan file content) :
    f.severity = "Medium" ∧ f.id = "ANCHOR-003" := by
  obtain ⟨s, _, hs⟩ := List.mem_flatMap.mp h
  simp only [reallocStructFindings] at hs
  split_ifs at hs
  · simp at hs
  · obtain ⟨m, _, heq⟩ := List.mem_filterMap.mp hs
    split at heq
    · cases heq
    · split_ifs at heq
      all_goals cases heq
      all_goals exact ⟨rfl, rfl⟩

lemma tcLine_shape (file sn : String) (start : Nat) (lines : List (List Char)) (j : Nat)
    (f : Finding) (h : tcLine file sn start lines j = some f) :
    f.severity = "Medium" ∧ f.id = "ANCHOR-004" := by
  simp only [tcLine] at h
  split at h
  next => cases h
  next fname tname heq =>
    split_ifs at h
    all_goals cases h
    all_goals exact ⟨rfl, rfl⟩

lemma tcScan_shape (file content : String) (f : Finding)
    (h : f ∈ typeCosplayScan file content) :
    f.severity = "Medium" ∧ f.id = "ANCHOR-004" := by
  obtain ⟨s, _, hs⟩ := List.mem_flatMap.mp h
  obtain ⟨j, _, hj⟩ := List.mem_filterMap.mp hs
  exact tcLine_shape file s.1 s.2.2 _ j f hj

lemma crScan_shape (file content : String) (f : Finding)
    (h : f ∈ closeReinitScan file content) :
    f.severity = "Medium" ∧ f.id = "ANCHOR-005" := by
  obtain ⟨t, _, ht⟩ := List.mem_map.mp h
  rw [← ht]
  exact ⟨rfl, rfl⟩

lemma moScan_shape (file content : String) (f : Finding)
    (h : f ∈ missingOwnerScan file content) :
    f.severity = "High" ∧ f.id = "ANCHOR-006" := by
  obtain ⟨s, _, hs⟩ := List.mem_flatMap.mp h
  obtain ⟨fname, tname, ln, he, _⟩ := moRun_shape file s.1 s.2.2 _ [] 0 f hs
  rw [he]
  exact ⟨rfl, rfl⟩

lemma summary_zero_of_partition (fs : List Finding) (s : String)
    (h : ∀ f ∈ fs, f.severity = "High" ∨ f.severity = "Medium")
    (h1 : ("High" : String) ≠ s) (h2 : ("Medium" : String) ≠ s) :
    summaryBySeverity fs s = 0 := by
  simp only [summaryBySeverity]
  rw [List.countP_eq_zero]
  intro f hf
  rcases h f hf with hh | hh <;> rw [hh] <;> simp only [beq_iff_eq]
  · exact h1
  · exact h2

lemma scoreTotal_partition (fs : List Finding)
    (h : ∀ f ∈ fs, f.severity = "High" ∨ f.severity = "Medium") :
    scoreTotal fs =
      5 * summaryBySeverity fs ("High") + 2 * summaryBySeverity fs ("Medium") := by
  induction fs with
  | nil => rfl
  | cons f rest ih =>
    have hf := h f (List.mem_cons_self f rest)
    have ht := ih (fun g hg => h g (List.mem_cons_of_mem f hg))
    simp only [scoreTotal, summaryBySeverity, List.map_cons, List.sum_cons,
      List.countP_cons] at ht ⊢
    have h5 : severityWeight ("High") = 5 := by decide
    have h2 : severityWeight ("Medium") = 2 := by decide
    have e1 : (("High" : String) == "High") = true := by decide
    have e2 : (("High" : String) == "Medium") = false := by decide
    have e3 : (("Medium" : String) == "High") = false := by decide
    have e4 : (("Medium" : String) == "Medium") = true := by decide
    rcases hf with hf | hf <;> rw [hf] <;>
      simp only [h5, h2, e1, e2, e3, e4, Bool.false_eq_true, eq_self_iff_true,
        if_true, if_false, ht] <;> omega

/-- C10: on any input, every finding emitted by the six registered detectors
    has severity High (with id ANCHOR-001 or ANCHOR-006) or Medium (with id
    ANCHOR-002 through ANCHOR-005); hence the Critical and Low counters of
    the report summary are always zero and the total score uses only the
    weights 5 and 2 — the Critical weight 10 and Low weight 1 are never
    exercised. -/
theorem c10_severity_partition (file content : String) :
    (∀ f ∈ allPatternsScan file content,
       (f.severity = "High" ∧ (f.id = "ANCHOR-001" ∨ f.id = "ANCHOR-006")) ∨
       (f.severity = "Medium" ∧ (f.id = "ANCHOR-002" ∨ f.id = "ANCHOR-003" ∨
         f.id = "ANCHOR-004" ∨ f.id = "ANCHOR-005"))) ∧
    summaryBySeverity (allPatternsScan file content) ("Critical") = 0 ∧
    summaryBySeverity (allPatternsScan file content) ("Low") = 0 ∧
    scoreTotal (allPatternsScan file content) =
      5 * summaryBySeverity (allPatternsScan file content) ("High") +
        2 * summaryBySeverity (allPatternsScan file content) ("Medium") := by
  have hpart : ∀ f ∈ allPatternsScan file content,
      (f.severity = "High" ∧ (f.id = "ANCHOR-001" ∨ f.id = "ANCHOR-006")) ∨
      (f.severity = "Medium" ∧ (f.id = "ANCHOR-002" ∨ f.id = "ANCHOR-003" ∨
        f.id = "ANCHOR-004" ∨ f.id = "ANCHOR-005")) := by
    intro f hf
    simp only [allPatternsScan, List.append_assoc, List.mem_append] at hf
    rcases hf with h | h | h | h | h | h
    · exact Or.inl ⟨(initScan_shape file content f h).1,
        Or.inl (initScan_shape file content f h).2⟩
    · exact Or.inr ⟨(dupScan_shape file content f h).1,
        Or.inl (dupScan_shape file content f h).2⟩
    · exact Or.inr ⟨(reallocScan_shape file content f h).1,
        Or.inr (Or.inl (reallocScan_shape file content f h).2)⟩
    · exact Or.inr ⟨(tcScan_shape file content f h).1,
        Or.inr (Or.inr (Or.inl (tcScan_shape file content f h).2))⟩
    · exact Or.inr ⟨(crScan_shape file content f h).1,
        Or.inr (Or.inr (Or.inr (crScan_shape file content f h).2))⟩
    · exact Or.inl ⟨(moScan_shape file content f h).1,
        Or.inr (moScan_shape file content f h).2⟩
  have hsev : ∀ f ∈ allPatternsScan file content,
      f.severity = "High" ∨ f.severity = "Medium" := by
    intro f hf
    rcases hpart f hf with ⟨h1, _⟩ | ⟨h1, _⟩
    · exact Or.inl h1
    · exact Or.inr h1
  refine ⟨hpart, ?_, ?_, scoreTotal_partition _ hsev⟩
  · exact summary_zero_of_partition _ _ hsev (by decide) (by decide)
  · exact summary_zero_of_partition _ _ hsev (by decide) (by decide)

def c10WitContent : String :=
  "#[derive(Accounts)]\npub struct W \x7b\n    pub data: AccountInfo<\x27info>,\n\x7d\n"

def c10WitFinding : Finding := mkTcFinding ("W") ("data") ("AccountInfo") ("a.rs") 3

/-- Witness: on a concrete file the AccountInfo field produces a finding in
    the combined detector output, and the theorem classifies it as a Medium
    ANCHOR-004 finding. -/
theorem c10_severity_partition_witness :
    c10WitFinding ∈ allPatternsScan ("a.rs") c10WitContent ∧
    ((c10WitFinding.severity = "High" ∧
        (c10WitFinding.id = "ANCHOR-001" ∨ c10WitFinding.id = "ANCHOR-006")) ∨
      (c10WitFinding.severity = "Medium" ∧
        (c10WitFinding.id = "ANCHOR-002" ∨ c10WitFinding.id = "ANCHOR-003" ∨
          c10WitFinding.id = "ANCHOR-004" ∨ c10WitFinding.id = "ANCHOR-005"))) :=
  ⟨by decide,
    (c10_severity_partition ("a.rs") c10WitContent).1 c10WitFinding (by decide)⟩
